import Mathlib

/-!
# Billiards simulation (`game_cpp/game.cpp`): embedding and verified properties

The simulation state of namespace `Game` is embedded as an explicit record that every
operation takes and returns.  The C++ `float` is a parameter `α`, an ordered field, and the
library call `sqrt` is a parameter `sqrt : α → α`; the properties stated "in exact real
arithmetic" take `α := ℝ` and `sqrt := Real.sqrt`.  Where a property depends on the rounding of
binary32 (the wall tests), the rounding is modelled explicitly by `roundBinary32` and
`checkWallsRounded`.  The seven-element arrays are functions on
`Fin 7`, the loops `for (i = 0; i < 7; ++i)` are left folds over `ballIndices`.  The calls into
`Table`, `Scene` and `Engine` only touch rendering state that the simulation never reads and
are left out.  The cooldown counters are `int` in the source; they are embedded as unbounded
integers (`min (c + 1) 10` keeps every value the program produces between 0 and 10).
-/

set_option linter.unusedSectionVars false

namespace Pool

/-! ## Basic Vector2 class -/

/-- The class `Vector2`: two `float` members. -/
structure Vector2 (α : Type) where
  x : α
  y : α
deriving DecidableEq, Repr

namespace Vector2

variable {α : Type} [LinearOrderedField α]

/-- Componentwise sum, `operator+` (through `operator+=`). -/
def add (a b : Vector2 α) : Vector2 α := ⟨a.x + b.x, a.y + b.y⟩

/-- Componentwise difference, `operator-` (through `operator-=`). -/
def sub (a b : Vector2 α) : Vector2 α := ⟨a.x - b.x, a.y - b.y⟩

/-- Scaling by a scalar, `operator*` (through `operator*=`). -/
def scale (a : Vector2 α) (c : α) : Vector2 α := ⟨a.x * c, a.y * c⟩

/-- The conversion `operator bool`: false exactly for the vector `(0, 0)`. -/
def toBool (a : Vector2 α) : Bool :=
  if a.x = 0 ∧ a.y = 0 then false else true

end Vector2

section Model

variable {α : Type} [LinearOrderedField α]

/-- The free function `Abs`: `sqrt(v.x * v.x + v.y * v.y)`. -/
def Abs (sqrt : α → α) (v : Vector2 α) : α := sqrt (v.x * v.x + v.y * v.y)

/-! ## Game parameters -/

/-- The constant `Params::Table::width`. -/
def width : α := 15
/-- The constant `Params::Table::height`. -/
def height : α := 8
/-- The constant `Params::Table::pocketRadius`. -/
def pocketRadius : α := 4 / 10
/-- The constant `Params::Ball::radius`. -/
def radius : α := 3 / 10
/-- The constant `Params::Ball::friction`. -/
def friction : α := 1 / 100
/-- The constant `Params::Shot::chargeTime`. -/
def chargeTime : α := 1

/-- The table `Params::Table::pocketsPositions`, in the order of the source. -/
def pocketsPositions : List (Vector2 α) :=
  [ ⟨-(5 / 10) * width + 1 / 10, -(5 / 10) * height + 1 / 10⟩,
    ⟨0, -(5 / 10) * height⟩,
    ⟨5 / 10 * width - 1 / 10, -(5 / 10) * height + 1 / 10⟩,
    ⟨-(5 / 10) * width + 1 / 10, 5 / 10 * height - 1 / 10⟩,
    ⟨0, 5 / 10 * height⟩,
    ⟨5 / 10 * width - 1 / 10, 5 / 10 * height - 1 / 10⟩ ]

/-- The table `Params::Table::ballsPositions`; index 0 is the player ball. -/
def ballsPositions : Fin 7 → Vector2 α :=
  ![ ⟨-(3 / 10) * width, 0⟩,
     ⟨2 / 10 * width, 0⟩,
     ⟨25 / 100 * width, 5 / 100 * height⟩,
     ⟨25 / 100 * width, -(5 / 100) * height⟩,
     ⟨3 / 10 * width, 1 / 10 * height⟩,
     ⟨3 / 10 * width, 0⟩,
     ⟨3 / 10 * width, -(1 / 10) * height⟩ ]

/-- The index range of every `for (int i = 0; i < 7; ++i)` loop. -/
def ballIndices : List (Fin 7) := [0, 1, 2, 3, 4, 5, 6]

/-! ## Game state -/

/-- The variables of namespace `Game` that the simulation reads and writes. -/
structure GameState (α : Type) where
  isChargingShot : Bool
  shotChargeProgress : α
  cur_ball_positions : Fin 7 → Vector2 α
  cur_ball_speeds : Fin 7 → Vector2 α
  scored : Fin 7 → Bool
  last_collision : Fin 7 → Fin 7 → Int

/-- The function `Game::init`: start layout, zero speeds, nothing scored, cooldowns 3.
The shot variables are not assigned. -/
def init (s : GameState α) : GameState α :=
  { s with
    cur_ball_positions := ballsPositions
    cur_ball_speeds := fun _ => ⟨0, 0⟩
    scored := fun _ => false
    last_collision := fun _ _ => 3 }

/-- The state at program start: the static initialisers followed by `Game::init`. -/
def startState : GameState α :=
  init
    { isChargingShot := false
      shotChargeProgress := 0
      cur_ball_positions := fun _ => ⟨0, 0⟩
      cur_ball_speeds := fun _ => ⟨0, 0⟩
      scored := fun _ => false
      last_collision := fun _ _ => 0 }

/-- The assignment `last_collision[i][j] = c`. -/
def setCooldown (s : GameState α) (i j : Fin 7) (c : Int) : GameState α :=
  { s with
    last_collision := Function.update s.last_collision i
      (Function.update (s.last_collision i) j c) }

/-- The function `Game::collide_two_balls`. -/
def collide_two_balls (sqrt : α → α) (s : GameState α) (i j : Fin 7) : GameState α :=
  if i ≥ j ∨ s.scored j = true ∨ s.scored i = true then s
  else
    let s1 := setCooldown s i j (min (s.last_collision i j + 1) 10)
    let v := (s1.cur_ball_positions i).sub (s1.cur_ball_positions j)
    if Abs sqrt v > 2 * radius then s1
    else if s1.last_collision i j < 2 then s1
    else
      let c := v.x / Abs sqrt v
      let sn := v.y / Abs sqrt v
      let x1 := (s1.cur_ball_speeds i).x * c + (s1.cur_ball_speeds i).y * sn
      let y1 := -(s1.cur_ball_speeds i).x * sn + (s1.cur_ball_speeds i).y * c
      let x2 := (s1.cur_ball_speeds j).x * c + (s1.cur_ball_speeds j).y * sn
      let y2 := -(s1.cur_ball_speeds j).x * sn + (s1.cur_ball_speeds j).y * c
      -- `std::swap(x1, x2)`: ball `i` continues with `x2`, ball `j` with `x1`
      let s2 : GameState α :=
        { s1 with
          cur_ball_speeds :=
            Function.update
              (Function.update s1.cur_ball_speeds i ⟨x2 * c - y1 * sn, x2 * sn + y1 * c⟩)
              j ⟨x1 * c - y2 * sn, x1 * sn + y2 * c⟩ }
      setCooldown s2 i j 0

/-- The statement `cur_ball_speeds[i].x *= -1`. -/
def flipX (s : GameState α) (i : Fin 7) : GameState α :=
  { s with
    cur_ball_speeds := Function.update s.cur_ball_speeds i
      ⟨(s.cur_ball_speeds i).x * (-1), (s.cur_ball_speeds i).y⟩ }

/-- The statement `cur_ball_speeds[i].y *= -1`. -/
def flipY (s : GameState α) (i : Fin 7) : GameState α :=
  { s with
    cur_ball_speeds := Function.update s.cur_ball_speeds i
      ⟨(s.cur_ball_speeds i).x, (s.cur_ball_speeds i).y * (-1)⟩ }

/-- The four wall tests of `check_collisions` for ball `i`, in source order, with the sums and
differences read in exact arithmetic (`checkWallsRounded` rounds them as binary32 does). -/
def checkWalls (s : GameState α) (i : Fin 7) : GameState α :=
  let s1 := if (s.cur_ball_positions i).x + radius > 5 / 10 * width then flipX s i else s
  let s2 := if (s1.cur_ball_positions i).x < radius - 5 / 10 * width then flipX s1 i else s1
  let s3 := if (s2.cur_ball_positions i).y + radius > 5 / 10 * height then flipY s2 i else s2
  if (s3.cur_ball_positions i).y < radius - 5 / 10 * height then flipY s3 i else s3

/-- The body of the pocket test: `scored[i] = true; cur_ball_speeds[i] = Vector2(0, 0)`. -/
def scoreBall (s : GameState α) (i : Fin 7) : GameState α :=
  { s with
    scored := Function.update s.scored i true
    cur_ball_speeds := Function.update s.cur_ball_speeds i ⟨0, 0⟩ }

/-- The loop over the six pockets of `check_collisions` for ball `i`. -/
def checkPockets (sqrt : α → α) (s : GameState α) (i : Fin 7) : GameState α :=
  pocketsPositions.foldl
    (fun st pocket =>
      if Abs sqrt (pocket.sub (st.cur_ball_positions i)) < pocketRadius then scoreBall st i
      else st)
    s

/-- The loop `for (int j = i + 1; j < 7; ++j) collide_two_balls(i, j)`. -/
def checkPairs (sqrt : α → α) (s : GameState α) (i : Fin 7) : GameState α :=
  (ballIndices.drop (i.val + 1)).foldl (fun st j => collide_two_balls sqrt st i j) s

/-- The body of the outer loop of `check_collisions` for ball `i`. -/
def checkBall (sqrt : α → α) (s : GameState α) (i : Fin 7) : GameState α :=
  if s.scored i = true then s
  else checkPairs sqrt (checkPockets sqrt (checkWalls s i) i) i

/-- The function `Game::check_collisions`. -/
def check_collisions (sqrt : α → α) (s : GameState α) : GameState α :=
  ballIndices.foldl (checkBall sqrt) s

/-! ## The wall tests in binary32 arithmetic

The definitions above read `+`, `-` and `*` as the exact operations of the ordered field.  The
program computes in binary32, where every arithmetic result is rounded before it is compared.
For the four wall tests the rounding is made explicit here: `fl` is the rounding of one
arithmetic result, `roundBinary32` is round-to-nearest-even to 24 significant bits (overflow
to infinity, beyond `2 ^ 128`, is not modelled).  With `fl := id` these are the definitions
above. -/

/-- The four wall tests of `check_collisions` for ball `i` with every arithmetic result
rounded by `fl`: the literal `0.3f` is `fl radius`, the sum `pos + radius` and the constants
`0.5f * width`, `radius - 0.5f * width` (and the same for `height`) are rounded; `*= -1` is
exact. -/
def checkWallsRounded (fl : α → α) (s : GameState α) (i : Fin 7) : GameState α :=
  let s1 :=
    if fl ((s.cur_ball_positions i).x + fl radius) > fl (5 / 10 * width) then flipX s i else s
  let s2 :=
    if (s1.cur_ball_positions i).x < fl (fl radius - fl (5 / 10 * width)) then flipX s1 i
    else s1
  let s3 :=
    if fl ((s2.cur_ball_positions i).y + fl radius) > fl (5 / 10 * height) then flipY s2 i
    else s2
  if (s3.cur_ball_positions i).y < fl (fl radius - fl (5 / 10 * height)) then flipY s3 i
  else s3

/-- The loop body of `apply_friction` on one velocity. -/
def frictionStep (sqrt : α → α) (v : Vector2 α) : Vector2 α :=
  if Abs sqrt v < friction then ⟨0, 0⟩
  else v.sub (v.scale (friction / Abs sqrt v))

/-- The function `Game::apply_friction`. -/
def apply_friction (sqrt : α → α) (s : GameState α) : GameState α :=
  { s with
    cur_ball_speeds :=
      ballIndices.foldl
        (fun sp i => Function.update sp i (frictionStep sqrt (sp i)))
        s.cur_ball_speeds }

/-- The loop of `update` that computes `game_finished`. -/
def gameFinished (s : GameState α) : Bool :=
  ballIndices.foldl (fun gf i => if s.scored i = false then false else gf) true

/-- The loop `cur_ball_positions[i] += cur_ball_speeds[i] * dt` of `update`. -/
def integrate (dt : α) (s : GameState α) : GameState α :=
  { s with
    cur_ball_positions :=
      ballIndices.foldl
        (fun ps i => Function.update ps i ((ps i).add ((s.cur_ball_speeds i).scale dt)))
        s.cur_ball_positions }

/-- The statement `if (isChargingShot) shotChargeProgress = std::min(shotChargeProgress
+ dt / Params::Shot::chargeTime, 1.f)` of `update`. -/
def chargeStep (dt : α) (s : GameState α) : GameState α :=
  if s.isChargingShot = true then
    { s with shotChargeProgress := min (s.shotChargeProgress + dt / chargeTime) 1 }
  else s

/-- The function `Game::update`. -/
def update (sqrt : α → α) (dt : α) (s : GameState α) : GameState α :=
  if s.scored 0 = true then init s
  else if gameFinished s = true then init s
  else apply_friction sqrt (integrate dt (check_collisions sqrt (chargeStep dt s)))

/-- The loop of both mouse handlers: is some `cur_ball_speeds[i]` true as a `bool`? -/
def anyBallMoving (s : GameState α) : Bool :=
  ballIndices.any (fun i => (s.cur_ball_speeds i).toBool)

/-- The function `Game::mouseButtonPressed`. -/
def mouseButtonPressed (s : GameState α) (_x _y : α) : GameState α :=
  if anyBallMoving s = true then s
  else { s with isChargingShot := true }

/-- The function `Game::mouseButtonReleased`. -/
def mouseButtonReleased (sqrt : α → α) (s : GameState α) (x y : α) : GameState α :=
  if anyBallMoving s = true then s
  else
    let v := (Vector2.mk x y).sub (s.cur_ball_positions 0)
    { s with
      isChargingShot := false
      cur_ball_speeds := Function.update s.cur_ball_speeds 0
        ((v.scale (s.shotChargeProgress / Abs sqrt v)).scale 6)
      shotChargeProgress := 0 }

/-! ## Predicates used in the statements -/

/-- The fields that `check_collisions` never writes: positions and the shot variables. -/
def SameFrame (s st : GameState α) : Prop :=
  st.cur_ball_positions = s.cur_ball_positions ∧ st.isChargingShot = s.isChargingShot ∧
    st.shotChargeProgress = s.shotChargeProgress

/-- The velocity of a ball is zero whenever the ball is scored. -/
def ScoredAtRest (k : Fin 7) (st : GameState α) : Prop :=
  st.scored k = true → st.cur_ball_speeds k = ⟨0, 0⟩

/-- What `check_collisions` keeps of a ball that is scored: its flag, its velocity and the
cooldown entries of every pair that contains it. -/
def Frozen (k : Fin 7) (s st : GameState α) : Prop :=
  st.scored k = true ∧ st.cur_ball_speeds k = s.cur_ball_speeds k ∧
    ∀ a b, a = k ∨ b = k → st.last_collision a b = s.last_collision a b

/-- The scalar product of two vectors. -/
def dot (a b : Vector2 α) : α := a.x * b.x + a.y * b.y

/-- The vector `(-a.y, a.x)`, perpendicular to `a`. -/
def perp (a : Vector2 α) : Vector2 α := ⟨-a.y, a.x⟩

/-- The unit vector from ball `j` to ball `i`: `(pos[i] - pos[j]) / |pos[i] - pos[j]|`. -/
def unitNormal (sqrt : α → α) (s : GameState α) (i j : Fin 7) : Vector2 α :=
  ⟨((s.cur_ball_positions i).sub (s.cur_ball_positions j)).x /
      Abs sqrt ((s.cur_ball_positions i).sub (s.cur_ball_positions j)),
    ((s.cur_ball_positions i).sub (s.cur_ball_positions j)).y /
      Abs sqrt ((s.cur_ball_positions i).sub (s.cur_ball_positions j))⟩

/-- A layout in which `check_collisions` finds nothing: no ball edge is past a wall, no ball
lies in a pocket and no two balls are within `2 * radius` of each other. -/
def FreeLayout (sqrt : α → α) (pos : Fin 7 → Vector2 α) : Prop :=
  ∀ i,
    ¬ ((pos i).x + radius > 5 / 10 * width) ∧
    ¬ ((pos i).x < radius - 5 / 10 * width) ∧
    ¬ ((pos i).y + radius > 5 / 10 * height) ∧
    ¬ ((pos i).y < radius - 5 / 10 * height) ∧
    (∀ p ∈ pocketsPositions, ¬ Abs sqrt (p.sub (pos i)) < pocketRadius) ∧
    (∀ j, i < j → Abs sqrt ((pos i).sub (pos j)) > 2 * radius)

/-- The cue ball is on its way to the upper left pocket: it has covered the distance `t` from
its start position along the direction `(-3, 4) / 5` and has speed `w`; the object balls rest
on the start layout, nothing is scored and no shot is being charged. -/
def InFlight (t w : α) (s : GameState α) : Prop :=
  s.isChargingShot = false ∧ s.shotChargeProgress = 0 ∧
    s.cur_ball_positions
      = Function.update ballsPositions 0 ⟨-(45 / 10) - 6 / 10 * t, 8 / 10 * t⟩ ∧
    s.cur_ball_speeds = Function.update (fun _ => ⟨0, 0⟩) 0 ⟨-(6 / 10) * w, 8 / 10 * w⟩ ∧
    s.scored = fun _ => false

/-- The states that the program reaches from the start state by calls of `update` with a
positive `dt` and of the two mouse handlers. -/
inductive Reachable (sqrt : α → α) : GameState α → Prop
  | start : Reachable sqrt startState
  | step_update (s : GameState α) (dt : α) :
      0 < dt → Reachable sqrt s → Reachable sqrt (update sqrt dt s)
  | step_press (s : GameState α) (x y : α) :
      Reachable sqrt s → Reachable sqrt (mouseButtonPressed s x y)
  | step_release (s : GameState α) (x y : α) :
      Reachable sqrt s → Reachable sqrt (mouseButtonReleased sqrt s x y)

/-- A state in which the cue ball is scored while a shot is being charged. -/
def cueScoredState : GameState α :=
  { isChargingShot := true
    shotChargeProgress := 1 / 2
    cur_ball_positions := fun _ => ⟨1, 1⟩
    cur_ball_speeds := fun _ => ⟨2, 0⟩
    scored := fun i => decide (i = 0)
    last_collision := fun _ _ => 7 }

/-- The start layout with ball 1 moved onto the centre of the lower side pocket, every ball
moving and ball 2 already scored. -/
def pocketState : GameState α :=
  { (startState : GameState α) with
    cur_ball_positions := Function.update ballsPositions 1 ⟨0, -4⟩
    cur_ball_speeds := fun _ => ⟨1, 0⟩
    scored := fun i => decide (i = 2) }

/-- The start layout with balls 0 and 1 overlapping and the cooldown of the pair at 0. -/
def debounceState : GameState α :=
  { (startState : GameState α) with
    cur_ball_positions := Function.update ballsPositions 1 ⟨-(45 / 10) + 1 / 2, 0⟩
    cur_ball_speeds := Function.update (fun _ => ⟨0, 0⟩) 1 ⟨-1, 0⟩
    last_collision := fun _ _ => 0 }

/-- The start layout with ball 3 moving, a shot half charged. -/
def movingState : GameState α :=
  { (startState : GameState α) with
    isChargingShot := true
    shotChargeProgress := 1 / 2
    cur_ball_speeds := Function.update (fun _ => ⟨0, 0⟩) 3 ⟨0, 1⟩ }

/-- The start layout with ball 4 moving at speed `5/100` along the direction `(3, 4)`. -/
def slowingState : GameState α :=
  { (startState : GameState α) with
    cur_ball_speeds := Function.update (fun _ => ⟨0, 0⟩) 4 ⟨3 / 100, 4 / 100⟩ }

/-- The start layout with a shot half charged and no ball moving. -/
def chargedState : GameState α :=
  { (startState : GameState α) with
    isChargingShot := true
    shotChargeProgress := 1 / 2 }

/-- The start layout with the six object balls scored and the cue ball on the table. -/
def objectBallsScoredState : GameState α :=
  { (startState : GameState α) with scored := fun i => decide (i ≠ 0) }

/-- A press at the start and one frame of `1/60` s of charging. -/
def traceCharged (sqrt : α → α) : GameState α :=
  update sqrt (1 / 60) (mouseButtonPressed startState 0 0)

/-- The release at `(-7.5, 4)`: the cue ball leaves towards the upper left pocket. -/
def traceShot (sqrt : α → α) : GameState α :=
  mouseButtonReleased sqrt (traceCharged sqrt) (-(75 / 10)) 4

/-- Ten frames (of 40 s, eight times 1 s, and 6 s) after which the cue ball has stopped. -/
def traceStopped (sqrt : α → α) : GameState α :=
  update sqrt 6 (update sqrt 1 (update sqrt 1 (update sqrt 1 (update sqrt 1 (update sqrt 1
    (update sqrt 1 (update sqrt 1 (update sqrt 1 (update sqrt 40 (traceShot sqrt))))))))))

/-- A second press and one frame of `1/60` s, in which the cue ball is scored. -/
def tracePocketed (sqrt : α → α) : GameState α :=
  update sqrt (1 / 60) (mouseButtonPressed (traceStopped sqrt) 0 0)

/-- The release at `(-6.2, 3.6)`, one unit east of the scored cue ball. -/
def traceReleased (sqrt : α → α) : GameState α :=
  mouseButtonReleased sqrt (tracePocketed sqrt) (-(62 / 10)) (36 / 10)

/-- Balls 0 and 1 overlapping at `(0, 0)` and `(0.3, 0.4)` with velocities `(1, 2)` and
`(0, -1)`. -/
def obliqueState : GameState α :=
  { (startState : GameState α) with
    cur_ball_positions :=
      Function.update (Function.update ballsPositions 0 ⟨0, 0⟩) 1 ⟨3 / 10, 4 / 10⟩
    cur_ball_speeds :=
      Function.update (Function.update (fun _ => ⟨0, 0⟩) 0 ⟨1, 2⟩) 1 ⟨0, -1⟩ }

/-- Balls 0 and 1 touching on the x axis and approaching head-on with speed 1. -/
def headOnState : GameState α :=
  { (startState : GameState α) with
    cur_ball_positions :=
      Function.update (Function.update ballsPositions 0 ⟨-(3 / 10), 0⟩) 1 ⟨3 / 10, 0⟩
    cur_ball_speeds :=
      Function.update (Function.update (fun _ => ⟨0, 0⟩) 0 ⟨1, 0⟩) 1 ⟨-1, 0⟩ }

end Model

/-! ## Component lemmas -/

section Basic

variable {α : Type} [LinearOrderedField α]

@[simp] theorem Vector2.add_x (a b : Vector2 α) : (a.add b).x = a.x + b.x := rfl
@[simp] theorem Vector2.add_y (a b : Vector2 α) : (a.add b).y = a.y + b.y := rfl
@[simp] theorem Vector2.sub_x (a b : Vector2 α) : (a.sub b).x = a.x - b.x := rfl
@[simp] theorem Vector2.sub_y (a b : Vector2 α) : (a.sub b).y = a.y - b.y := rfl
@[simp] theorem Vector2.scale_x (a : Vector2 α) (c : α) : (a.scale c).x = a.x * c := rfl
@[simp] theorem Vector2.scale_y (a : Vector2 α) (c : α) : (a.scale c).y = a.y * c := rfl

theorem ballsPositions_0 : (ballsPositions : Fin 7 → Vector2 α) 0 = ⟨-(3 / 10) * width, 0⟩ := rfl
theorem ballsPositions_1 : (ballsPositions : Fin 7 → Vector2 α) 1 = ⟨2 / 10 * width, 0⟩ := rfl
theorem ballsPositions_2 :
    (ballsPositions : Fin 7 → Vector2 α) 2 = ⟨25 / 100 * width, 5 / 100 * height⟩ := rfl
theorem ballsPositions_3 :
    (ballsPositions : Fin 7 → Vector2 α) 3 = ⟨25 / 100 * width, -(5 / 100) * height⟩ := rfl
theorem ballsPositions_4 :
    (ballsPositions : Fin 7 → Vector2 α) 4 = ⟨3 / 10 * width, 1 / 10 * height⟩ := rfl
theorem ballsPositions_5 : (ballsPositions : Fin 7 → Vector2 α) 5 = ⟨3 / 10 * width, 0⟩ := rfl
theorem ballsPositions_6 :
    (ballsPositions : Fin 7 → Vector2 α) 6 = ⟨3 / 10 * width, -(1 / 10) * height⟩ := rfl

theorem Vector2.toBool_eq_true_iff (a : Vector2 α) : a.toBool = true ↔ a ≠ ⟨0, 0⟩ := by
  cases a with
  | mk x y =>
    unfold Vector2.toBool
    by_cases h : x = 0 ∧ y = 0
    · simp [h]
    · simp only [h, if_false, true_iff, ne_eq, Vector2.mk.injEq, not_false_eq_true]

theorem mem_ballIndices (i : Fin 7) : i ∈ ballIndices := by
  fin_cases i <;> simp [ballIndices]

theorem anyBallMoving_iff (s : GameState α) :
    anyBallMoving s = true ↔ ∃ i, s.cur_ball_speeds i ≠ ⟨0, 0⟩ := by
  unfold anyBallMoving
  rw [List.any_eq_true]
  constructor
  · rintro ⟨i, _, hi⟩
    exact ⟨i, (Vector2.toBool_eq_true_iff _).1 hi⟩
  · rintro ⟨i, hi⟩
    exact ⟨i, mem_ballIndices i, (Vector2.toBool_eq_true_iff _).2 hi⟩

theorem anyBallMoving_eq_false (s : GameState α) (h : ∀ i, s.cur_ball_speeds i = ⟨0, 0⟩) :
    anyBallMoving s = false := by
  cases hm : anyBallMoving s with
  | false => rfl
  | true =>
    obtain ⟨i, hi⟩ := (anyBallMoving_iff s).1 hm
    exact absurd (h i) hi

theorem gameFinished_fold (sc : Fin 7 → Bool) (l : List (Fin 7)) (b : Bool) :
    l.foldl (fun gf i => if sc i = false then false else gf) b = true ↔
      b = true ∧ ∀ i ∈ l, sc i = true := by
  induction l generalizing b with
  | nil => simp
  | cons a l ih =>
    rw [List.foldl_cons, ih]
    cases h : sc a <;> simp [h]

theorem gameFinished_iff (s : GameState α) :
    gameFinished s = true ↔ ∀ i, s.scored i = true := by
  unfold gameFinished
  rw [gameFinished_fold]
  constructor
  · intro h i
    exact h.2 i (mem_ballIndices i)
  · intro h
    exact ⟨rfl, fun i _ => h i⟩

end Basic

/-! ## Frame lemmas for the steps of `check_collisions` -/

section Frames

variable {α : Type} [LinearOrderedField α]

theorem collide_positions (sqrt : α → α) (s : GameState α) (i j : Fin 7) :
    (collide_two_balls sqrt s i j).cur_ball_positions = s.cur_ball_positions := by
  unfold collide_two_balls
  dsimp only
  split_ifs <;> rfl

theorem collide_scored (sqrt : α → α) (s : GameState α) (i j : Fin 7) :
    (collide_two_balls sqrt s i j).scored = s.scored := by
  unfold collide_two_balls
  dsimp only
  split_ifs <;> rfl

theorem collide_shot (sqrt : α → α) (s : GameState α) (i j : Fin 7) :
    (collide_two_balls sqrt s i j).isChargingShot = s.isChargingShot ∧
      (collide_two_balls sqrt s i j).shotChargeProgress = s.shotChargeProgress := by
  unfold collide_two_balls
  dsimp only
  split_ifs <;> exact ⟨rfl, rfl⟩

theorem collide_speeds_other (sqrt : α → α) (s : GameState α) (i j k : Fin 7)
    (hi : k ≠ i) (hj : k ≠ j) :
    (collide_two_balls sqrt s i j).cur_ball_speeds k = s.cur_ball_speeds k := by
  unfold collide_two_balls
  dsimp only
  split_ifs <;> simp [setCooldown, Function.update_noteq hi, Function.update_noteq hj]

theorem collide_speeds_scored (sqrt : α → α) (s : GameState α) (i j k : Fin 7)
    (hk : s.scored k = true) :
    (collide_two_balls sqrt s i j).cur_ball_speeds k = s.cur_ball_speeds k := by
  by_cases hi : k = i
  · subst hi
    simp [collide_two_balls, hk]
  by_cases hj : k = j
  · subst hj
    simp [collide_two_balls, hk]
  exact collide_speeds_other sqrt s i j k hi hj

theorem collide_cooldown_scored (sqrt : α → α) (s : GameState α) (i j k : Fin 7)
    (hk : s.scored k = true) (a b : Fin 7) (hab : a = k ∨ b = k) :
    (collide_two_balls sqrt s i j).last_collision a b = s.last_collision a b := by
  unfold collide_two_balls
  dsimp only
  split_ifs with h1 h2 h3
  · rfl
  all_goals
    have hik : i ≠ k := by
      rintro rfl
      exact h1 (Or.inr (Or.inr hk))
    have hjk : j ≠ k := by
      rintro rfl
      exact h1 (Or.inr (Or.inl hk))
    have hne : ¬ (a = i ∧ b = j) := by
      rintro ⟨rfl, rfl⟩
      rcases hab with h | h
      · exact hik h
      · exact hjk h
    by_cases hai : a = i
    · have hbj : b ≠ j := fun h => hne ⟨hai, h⟩
      subst hai
      simp [setCooldown, Function.update_noteq hbj]
    · simp [setCooldown, Function.update_noteq hai]

theorem collide_speeds_zero (sqrt : α → α) (s : GameState α) (i j : Fin 7)
    (h : ∀ k, s.cur_ball_speeds k = ⟨0, 0⟩) (k : Fin 7) :
    (collide_two_balls sqrt s i j).cur_ball_speeds k = ⟨0, 0⟩ := by
  unfold collide_two_balls
  dsimp only
  split_ifs
  · exact h k
  · exact h k
  · exact h k
  · simp only [setCooldown, h, Function.update_apply]
    split_ifs <;> simp

theorem collide_speeds_far (sqrt : α → α) (s : GameState α) (i j : Fin 7)
    (h : Abs sqrt ((s.cur_ball_positions i).sub (s.cur_ball_positions j)) > 2 * radius) :
    (collide_two_balls sqrt s i j).cur_ball_speeds = s.cur_ball_speeds := by
  unfold collide_two_balls
  dsimp only
  split_ifs with h1 h2 h3
  · rfl
  · rfl
  · exact absurd h h2
  · exact absurd h h2

/-- A property that holds initially and is kept by every loop iteration holds after the
loop. -/
theorem foldl_preserves {σ β : Type} (P : σ → Prop) (f : σ → β → σ) (l : List β) (s : σ)
    (hs : P s) (hf : ∀ st b, b ∈ l → P st → P (f st b)) : P (l.foldl f s) := by
  induction l generalizing s with
  | nil => exact hs
  | cons a l ih =>
    rw [List.foldl_cons]
    apply ih
    · exact hf s a (List.mem_cons_self a l) hs
    · intro st b hb hst
      exact hf st b (List.mem_cons_of_mem a hb) hst

/-- A property that the iteration for `a` establishes and that every iteration keeps holds
after the loop, given an invariant `J` of the loop. -/
theorem foldl_establishes {σ β : Type} (J P : σ → Prop) (f : σ → β → σ) (l : List β) (a : β)
    (ha : a ∈ l) (s : σ) (hs : J s)
    (hJ : ∀ st b, J st → J (f st b))
    (hP : ∀ st b, J st → P st → P (f st b))
    (hE : ∀ st, J st → P (f st a)) : P (l.foldl f s) := by
  induction l generalizing s with
  | nil => cases ha
  | cons b l ih =>
    rw [List.foldl_cons]
    rcases List.mem_cons.1 ha with rfl | hmem
    · have h1 : J (f s a) ∧ P (f s a) := ⟨hJ s a hs, hE s hs⟩
      have h2 : J (l.foldl f (f s a)) ∧ P (l.foldl f (f s a)) := by
        apply foldl_preserves (fun st => J st ∧ P st) f l (f s a) h1
        intro st c _ hst
        exact ⟨hJ st c hst.1, hP st c hst.1 hst.2⟩
      exact h2.2
    · exact ih hmem (f s b) (hJ s b hs)

theorem SameFrame.refl (s : GameState α) : SameFrame s s := ⟨rfl, rfl, rfl⟩

theorem SameFrame.trans {s st su : GameState α} (h1 : SameFrame s st) (h2 : SameFrame st su) :
    SameFrame s su :=
  ⟨h2.1.trans h1.1, h2.2.1.trans h1.2.1, h2.2.2.trans h1.2.2⟩

theorem collide_sameFrame (sqrt : α → α) (s : GameState α) (i j : Fin 7) :
    SameFrame s (collide_two_balls sqrt s i j) :=
  ⟨collide_positions sqrt s i j, (collide_shot sqrt s i j).1, (collide_shot sqrt s i j).2⟩

theorem checkWalls_sameFrame (s : GameState α) (i : Fin 7) : SameFrame s (checkWalls s i) := by
  unfold checkWalls
  dsimp only
  split_ifs <;> exact ⟨rfl, rfl, rfl⟩

theorem checkWalls_scored (s : GameState α) (i : Fin 7) : (checkWalls s i).scored = s.scored := by
  unfold checkWalls
  dsimp only
  split_ifs <;> rfl

theorem checkWalls_cooldown (s : GameState α) (i : Fin 7) :
    (checkWalls s i).last_collision = s.last_collision := by
  unfold checkWalls
  dsimp only
  split_ifs <;> rfl

theorem checkWalls_speeds_other (s : GameState α) (i k : Fin 7) (h : k ≠ i) :
    (checkWalls s i).cur_ball_speeds k = s.cur_ball_speeds k := by
  unfold checkWalls
  dsimp only
  split_ifs <;> simp [flipX, flipY, Function.update_noteq h]

theorem checkWalls_speeds_zero (s : GameState α) (i : Fin 7)
    (h : ∀ k, s.cur_ball_speeds k = ⟨0, 0⟩) (k : Fin 7) :
    (checkWalls s i).cur_ball_speeds k = ⟨0, 0⟩ := by
  by_cases hk : k = i
  · subst hk
    unfold checkWalls
    dsimp only
    split_ifs <;> simp [flipX, flipY, h]
  · rw [checkWalls_speeds_other s i k hk]
    exact h k

theorem checkPockets_sameFrame (sqrt : α → α) (s : GameState α) (i : Fin 7) :
    SameFrame s (checkPockets sqrt s i) := by
  unfold checkPockets
  refine foldl_preserves (fun st : GameState α => SameFrame s st) _ _ _ ?_ ?_
  · exact SameFrame.refl s
  · intro st p _ hst
    dsimp only
    split_ifs
    · exact hst.trans ⟨rfl, rfl, rfl⟩
    · exact hst

theorem checkPockets_cooldown (sqrt : α → α) (s : GameState α) (i : Fin 7) :
    (checkPockets sqrt s i).last_collision = s.last_collision := by
  unfold checkPockets
  refine foldl_preserves (fun st : GameState α => st.last_collision = s.last_collision) _ _ _ ?_ ?_
  · rfl
  · intro st p _ hst
    dsimp only
    split_ifs
    · exact hst
    · exact hst

theorem checkPockets_other (sqrt : α → α) (s : GameState α) (i k : Fin 7) (h : k ≠ i) :
    (checkPockets sqrt s i).cur_ball_speeds k = s.cur_ball_speeds k ∧
      (checkPockets sqrt s i).scored k = s.scored k := by
  unfold checkPockets
  refine foldl_preserves
    (fun st : GameState α => st.cur_ball_speeds k = s.cur_ball_speeds k ∧ st.scored k = s.scored k) _ _ _ ?_ ?_
  · exact ⟨rfl, rfl⟩
  · intro st p _ hst
    dsimp only
    split_ifs
    · simpa [scoreBall, Function.update_noteq h] using hst
    · exact hst

theorem checkPockets_scored_mono (sqrt : α → α) (s : GameState α) (i k : Fin 7)
    (h : s.scored k = true) : (checkPockets sqrt s i).scored k = true := by
  unfold checkPockets
  refine foldl_preserves (fun st : GameState α => st.scored k = true) _ _ _ ?_ ?_
  · exact h
  · intro st p _ hst
    dsimp only
    split_ifs
    · simp only [scoreBall, Function.update_apply]
      split_ifs
      · rfl
      · exact hst
    · exact hst

theorem checkPockets_speeds_zero (sqrt : α → α) (s : GameState α) (i : Fin 7)
    (h : ∀ k, s.cur_ball_speeds k = ⟨0, 0⟩) (k : Fin 7) :
    (checkPockets sqrt s i).cur_ball_speeds k = ⟨0, 0⟩ := by
  revert k
  unfold checkPockets
  refine foldl_preserves (fun st : GameState α => ∀ k, st.cur_ball_speeds k = ⟨0, 0⟩) _ _ _ h ?_
  intro st p _ hst
  dsimp only
  split_ifs
  · intro k
    simp only [scoreBall, Function.update_apply]
    split_ifs
    · rfl
    · exact hst k
  · exact hst

theorem checkPockets_scoredAtRest (sqrt : α → α) (s : GameState α) (i k : Fin 7)
    (h : ScoredAtRest k s) : ScoredAtRest k (checkPockets sqrt s i) := by
  unfold checkPockets
  refine foldl_preserves (fun st : GameState α => ScoredAtRest k st) _ _ _ h ?_
  intro st p _ hst
  dsimp only
  split_ifs
  · intro hk
    by_cases hki : k = i
    · subst hki
      simp [scoreBall]
    · have h1 : st.scored k = true := by
        simpa [scoreBall, Function.update_noteq hki] using hk
      simpa [scoreBall, Function.update_noteq hki] using hst h1
  · exact hst

/-- A ball that lies in a pocket is scored by the pocket loop. -/
theorem checkPockets_scores (sqrt : α → α) (s : GameState α) (i : Fin 7)
    (p : Vector2 α) (hp : p ∈ pocketsPositions)
    (hd : Abs sqrt (p.sub (s.cur_ball_positions i)) < pocketRadius) :
    (checkPockets sqrt s i).scored i = true := by
  unfold checkPockets
  refine foldl_establishes (fun st : GameState α => st.cur_ball_positions = s.cur_ball_positions)
    (fun st : GameState α => st.scored i = true) _ _ p hp s rfl ?_ ?_ ?_
  · intro st q hst
    dsimp only
    split_ifs
    · exact hst
    · exact hst
  · intro st q _ hsc
    dsimp only
    split_ifs
    · simp [scoreBall]
    · exact hsc
  · intro st hst
    dsimp only
    rw [hst, if_pos hd]
    simp [scoreBall]

theorem checkPockets_none (sqrt : α → α) (s : GameState α) (i : Fin 7)
    (h : ∀ p ∈ pocketsPositions,
      ¬ Abs sqrt (p.sub (s.cur_ball_positions i)) < pocketRadius) :
    checkPockets sqrt s i = s := by
  unfold checkPockets
  refine foldl_preserves (fun st : GameState α => st = s) _ _ _ rfl ?_
  intro st p hp hst
  dsimp only
  rw [hst, if_neg (h p hp)]

theorem collide_scoredAtRest (sqrt : α → α) (s : GameState α) (i j k : Fin 7)
    (h : ScoredAtRest k s) : ScoredAtRest k (collide_two_balls sqrt s i j) := by
  intro hk
  rw [collide_scored] at hk
  rw [collide_speeds_scored sqrt s i j k hk]
  exact h hk

theorem checkWalls_scoredAtRest (s : GameState α) (i k : Fin 7) (hi : s.scored i = false)
    (h : ScoredAtRest k s) : ScoredAtRest k (checkWalls s i) := by
  intro hk
  rw [checkWalls_scored] at hk
  by_cases hki : k = i
  · subst hki
    rw [hi] at hk
    cases hk
  · rw [checkWalls_speeds_other s i k hki]
    exact h hk

theorem checkPairs_sameFrame (sqrt : α → α) (s : GameState α) (i : Fin 7) :
    SameFrame s (checkPairs sqrt s i) := by
  unfold checkPairs
  refine foldl_preserves (fun st : GameState α => SameFrame s st) _ _ _ (SameFrame.refl s) ?_
  intro st j _ hst
  exact hst.trans (collide_sameFrame sqrt st i j)

theorem checkPairs_scored (sqrt : α → α) (s : GameState α) (i : Fin 7) :
    (checkPairs sqrt s i).scored = s.scored := by
  unfold checkPairs
  refine foldl_preserves (fun st : GameState α => st.scored = s.scored) _ _ _ rfl ?_
  intro st j _ hst
  dsimp only
  rw [collide_scored, hst]

theorem checkPairs_scoredAtRest (sqrt : α → α) (s : GameState α) (i k : Fin 7)
    (h : ScoredAtRest k s) : ScoredAtRest k (checkPairs sqrt s i) := by
  unfold checkPairs
  refine foldl_preserves (fun st : GameState α => ScoredAtRest k st) _ _ _ h ?_
  intro st j _ hst
  exact collide_scoredAtRest sqrt st i j k hst

theorem checkPairs_speeds_zero (sqrt : α → α) (s : GameState α) (i : Fin 7)
    (h : ∀ k, s.cur_ball_speeds k = ⟨0, 0⟩) (k : Fin 7) :
    (checkPairs sqrt s i).cur_ball_speeds k = ⟨0, 0⟩ := by
  revert k
  unfold checkPairs
  refine foldl_preserves (fun st : GameState α => ∀ k, st.cur_ball_speeds k = ⟨0, 0⟩)
    _ _ _ h ?_
  intro st j _ hst k
  exact collide_speeds_zero sqrt st i j hst k

theorem collide_frozen (sqrt : α → α) (s st : GameState α) (i j k : Fin 7)
    (h : Frozen k s st) : Frozen k s (collide_two_balls sqrt st i j) := by
  refine ⟨?_, ?_, ?_⟩
  · rw [collide_scored]
    exact h.1
  · rw [collide_speeds_scored sqrt st i j k h.1]
    exact h.2.1
  · intro a b hab
    rw [collide_cooldown_scored sqrt st i j k h.1 a b hab]
    exact h.2.2 a b hab

theorem checkPairs_frozen (sqrt : α → α) (s st : GameState α) (i k : Fin 7)
    (h : Frozen k s st) : Frozen k s (checkPairs sqrt st i) := by
  unfold checkPairs
  refine foldl_preserves (fun su : GameState α => Frozen k s su) _ _ _ h ?_
  intro su j _ hsu
  exact collide_frozen sqrt s su i j k hsu

theorem checkBall_frozen (sqrt : α → α) (s st : GameState α) (i k : Fin 7)
    (h : Frozen k s st) : Frozen k s (checkBall sqrt st i) := by
  unfold checkBall
  split_ifs with hi
  · exact h
  · have hki : k ≠ i := by
      rintro rfl
      exact hi h.1
    apply checkPairs_frozen
    refine ⟨?_, ?_, ?_⟩
    · rw [(checkPockets_other sqrt _ i k hki).2, checkWalls_scored]
      exact h.1
    · rw [(checkPockets_other sqrt _ i k hki).1, checkWalls_speeds_other st i k hki, h.2.1]
    · intro a b hab
      rw [checkPockets_cooldown, checkWalls_cooldown]
      exact h.2.2 a b hab

theorem check_collisions_frozen (sqrt : α → α) (s : GameState α) (k : Fin 7)
    (h : s.scored k = true) : Frozen k s (check_collisions sqrt s) := by
  unfold check_collisions
  refine foldl_preserves (fun st : GameState α => Frozen k s st) _ _ _ ?_ ?_
  · exact ⟨h, rfl, fun _ _ _ => rfl⟩
  · intro st i _ hst
    exact checkBall_frozen sqrt s st i k hst

theorem checkBall_sameFrame (sqrt : α → α) (s : GameState α) (i : Fin 7) :
    SameFrame s (checkBall sqrt s i) := by
  unfold checkBall
  split_ifs
  · exact SameFrame.refl s
  · exact ((checkWalls_sameFrame s i).trans (checkPockets_sameFrame sqrt _ i)).trans
      (checkPairs_sameFrame sqrt _ i)

theorem check_collisions_sameFrame (sqrt : α → α) (s : GameState α) :
    SameFrame s (check_collisions sqrt s) := by
  unfold check_collisions
  refine foldl_preserves (fun st : GameState α => SameFrame s st) _ _ _ (SameFrame.refl s) ?_
  intro st i _ hst
  exact hst.trans (checkBall_sameFrame sqrt st i)

theorem checkBall_scored_mono (sqrt : α → α) (s : GameState α) (i k : Fin 7)
    (h : s.scored k = true) : (checkBall sqrt s i).scored k = true := by
  unfold checkBall
  split_ifs
  · exact h
  · rw [checkPairs_scored]
    apply checkPockets_scored_mono
    rw [checkWalls_scored]
    exact h

theorem check_collisions_scored_mono (sqrt : α → α) (s : GameState α) (k : Fin 7)
    (h : s.scored k = true) : (check_collisions sqrt s).scored k = true := by
  unfold check_collisions
  refine foldl_preserves (fun st : GameState α => st.scored k = true) _ _ _ h ?_
  intro st i _ hst
  exact checkBall_scored_mono sqrt st i k hst

theorem checkBall_scoredAtRest (sqrt : α → α) (s : GameState α) (i k : Fin 7)
    (h : ScoredAtRest k s) : ScoredAtRest k (checkBall sqrt s i) := by
  unfold checkBall
  split_ifs with hi
  · exact h
  · apply checkPairs_scoredAtRest
    apply checkPockets_scoredAtRest
    apply checkWalls_scoredAtRest
    · simpa using hi
    · exact h

theorem check_collisions_scoredAtRest (sqrt : α → α) (s : GameState α) (k : Fin 7)
    (h : ScoredAtRest k s) : ScoredAtRest k (check_collisions sqrt s) := by
  unfold check_collisions
  refine foldl_preserves (fun st : GameState α => ScoredAtRest k st) _ _ _ h ?_
  intro st i _ hst
  exact checkBall_scoredAtRest sqrt st i k hst

theorem checkBall_speeds_zero (sqrt : α → α) (s : GameState α) (i : Fin 7)
    (h : ∀ k, s.cur_ball_speeds k = ⟨0, 0⟩) (k : Fin 7) :
    (checkBall sqrt s i).cur_ball_speeds k = ⟨0, 0⟩ := by
  unfold checkBall
  split_ifs
  · exact h k
  · apply checkPairs_speeds_zero
    apply checkPockets_speeds_zero
    exact checkWalls_speeds_zero s i h

theorem check_collisions_speeds_zero (sqrt : α → α) (s : GameState α)
    (h : ∀ k, s.cur_ball_speeds k = ⟨0, 0⟩) (k : Fin 7) :
    (check_collisions sqrt s).cur_ball_speeds k = ⟨0, 0⟩ := by
  revert k
  unfold check_collisions
  refine foldl_preserves (fun st : GameState α => ∀ k, st.cur_ball_speeds k = ⟨0, 0⟩)
    _ _ _ h ?_
  intro st i _ hst k
  exact checkBall_speeds_zero sqrt st i hst k

/-- The iteration of `check_collisions` for a ball that lies in a pocket leaves it scored. -/
theorem checkBall_scores (sqrt : α → α) (s : GameState α) (i : Fin 7)
    (p : Vector2 α) (hp : p ∈ pocketsPositions)
    (hd : Abs sqrt (p.sub (s.cur_ball_positions i)) < pocketRadius) :
    (checkBall sqrt s i).scored i = true := by
  unfold checkBall
  split_ifs with hi
  · exact hi
  · rw [checkPairs_scored]
    apply checkPockets_scores sqrt _ i p hp
    rw [(checkWalls_sameFrame s i).1]
    exact hd

/-- A ball that lies in a pocket on entry is scored after `check_collisions`. -/
theorem check_collisions_scores (sqrt : α → α) (s : GameState α) (i : Fin 7)
    (p : Vector2 α) (hp : p ∈ pocketsPositions)
    (hd : Abs sqrt (p.sub (s.cur_ball_positions i)) < pocketRadius) :
    (check_collisions sqrt s).scored i = true := by
  unfold check_collisions
  refine foldl_establishes
    (fun st : GameState α => st.cur_ball_positions = s.cur_ball_positions)
    (fun st : GameState α => st.scored i = true) _ _ i (mem_ballIndices i) s rfl ?_ ?_ ?_
  · intro st b hst
    rw [(checkBall_sameFrame sqrt st b).1, hst]
  · intro st b _ hsc
    exact checkBall_scored_mono sqrt st b i hsc
  · intro st hst
    apply checkBall_scores sqrt st i p hp
    rw [hst]
    exact hd

/-- A loop that rewrites entry `i` of an array from its own old value, once per index. -/
theorem foldl_update_each {β : Type} (g : Fin 7 → β → β) (l : List (Fin 7)) (hl : l.Nodup)
    (a : Fin 7 → β) (k : Fin 7) :
    (l.foldl (fun a i => Function.update a i (g i (a i))) a) k
      = if k ∈ l then g k (a k) else a k := by
  induction l generalizing a with
  | nil => simp
  | cons b l ih =>
    rw [List.foldl_cons, ih (List.nodup_cons.1 hl).2]
    have hb : b ∉ l := (List.nodup_cons.1 hl).1
    by_cases hk : k ∈ l
    · have hkb : k ≠ b := by
        rintro rfl
        exact hb hk
      simp [hk, Function.update_noteq hkb]
    · by_cases hkb : k = b
      · subst hkb
        simp [hk]
      · simp [hk, hkb, Function.update_noteq hkb]

theorem ballIndices_nodup : ballIndices.Nodup := by
  decide

theorem apply_friction_speeds (sqrt : α → α) (s : GameState α) (k : Fin 7) :
    (apply_friction sqrt s).cur_ball_speeds k = frictionStep sqrt (s.cur_ball_speeds k) := by
  have h := foldl_update_each (fun _ v => frictionStep sqrt v) ballIndices ballIndices_nodup
    s.cur_ball_speeds k
  rw [if_pos (mem_ballIndices k)] at h
  exact h

theorem integrate_positions (dt : α) (s : GameState α) (k : Fin 7) :
    (integrate dt s).cur_ball_positions k
      = (s.cur_ball_positions k).add ((s.cur_ball_speeds k).scale dt) := by
  have h := foldl_update_each (fun i v => v.add ((s.cur_ball_speeds i).scale dt)) ballIndices
    ballIndices_nodup s.cur_ball_positions k
  rw [if_pos (mem_ballIndices k)] at h
  exact h

theorem frictionStep_zero (sqrt : α → α) : frictionStep sqrt (⟨0, 0⟩ : Vector2 α) = ⟨0, 0⟩ := by
  unfold frictionStep
  split_ifs
  · rfl
  · simp [Vector2.sub, Vector2.scale]

theorem chargeStep_fields (dt : α) (s : GameState α) :
    (chargeStep dt s).cur_ball_positions = s.cur_ball_positions ∧
      (chargeStep dt s).cur_ball_speeds = s.cur_ball_speeds ∧
      (chargeStep dt s).scored = s.scored ∧
      (chargeStep dt s).last_collision = s.last_collision ∧
      (chargeStep dt s).isChargingShot = s.isChargingShot := by
  unfold chargeStep
  split_ifs <;> exact ⟨rfl, rfl, rfl, rfl, rfl⟩

theorem gameFinished_false (s : GameState α) (h0 : s.scored 0 = false) :
    ¬ gameFinished s = true := by
  intro h
  have h1 := (gameFinished_iff s).1 h 0
  rw [h0] at h1
  cases h1

/-- The effect of `update` outside the terminal states. -/
theorem update_running (sqrt : α → α) (dt : α) (s : GameState α) (h0 : s.scored 0 = false) :
    update sqrt dt s =
      apply_friction sqrt (integrate dt (check_collisions sqrt (chargeStep dt s))) := by
  unfold update
  rw [if_neg (by simp [h0]), if_neg (gameFinished_false s h0)]

theorem update_running_scored (sqrt : α → α) (dt : α) (s : GameState α)
    (h0 : s.scored 0 = false) :
    (update sqrt dt s).scored = (check_collisions sqrt (chargeStep dt s)).scored := by
  rw [update_running sqrt dt s h0]
  rfl

theorem update_running_speeds (sqrt : α → α) (dt : α) (s : GameState α)
    (h0 : s.scored 0 = false) (k : Fin 7) :
    (update sqrt dt s).cur_ball_speeds k
      = frictionStep sqrt ((check_collisions sqrt (chargeStep dt s)).cur_ball_speeds k) := by
  rw [update_running sqrt dt s h0, apply_friction_speeds]
  rfl

theorem update_running_positions (sqrt : α → α) (dt : α) (s : GameState α)
    (h0 : s.scored 0 = false) (k : Fin 7) :
    (update sqrt dt s).cur_ball_positions k
      = (s.cur_ball_positions k).add
          (((check_collisions sqrt (chargeStep dt s)).cur_ball_speeds k).scale dt) := by
  rw [update_running sqrt dt s h0]
  have h1 : (apply_friction sqrt (integrate dt (check_collisions sqrt (chargeStep dt s)))).cur_ball_positions
      = (integrate dt (check_collisions sqrt (chargeStep dt s))).cur_ball_positions := rfl
  rw [h1, integrate_positions, (check_collisions_sameFrame sqrt _).1,
    (chargeStep_fields dt s).1]

theorem update_running_shot (sqrt : α → α) (dt : α) (s : GameState α)
    (h0 : s.scored 0 = false) :
    (update sqrt dt s).isChargingShot = s.isChargingShot ∧
      (update sqrt dt s).shotChargeProgress = (chargeStep dt s).shotChargeProgress := by
  rw [update_running sqrt dt s h0]
  have h := check_collisions_sameFrame sqrt (chargeStep dt s)
  exact ⟨h.2.1.trans (chargeStep_fields dt s).2.2.2.2, h.2.2⟩

/-- An `update` of a state in which no ball moves leaves every ball where it is, at rest. -/
theorem update_at_rest (sqrt : α → α) (dt : α) (s : GameState α) (h0 : s.scored 0 = false)
    (hz : ∀ i, s.cur_ball_speeds i = ⟨0, 0⟩) :
    (∀ i, (update sqrt dt s).cur_ball_speeds i = ⟨0, 0⟩) ∧
      (update sqrt dt s).cur_ball_positions = s.cur_ball_positions := by
  have hc : ∀ i, (check_collisions sqrt (chargeStep dt s)).cur_ball_speeds i = ⟨0, 0⟩ := by
    apply check_collisions_speeds_zero
    rw [(chargeStep_fields dt s).2.1]
    exact hz
  constructor
  · intro i
    rw [update_running_speeds sqrt dt s h0, hc, frictionStep_zero]
  · funext k
    rw [update_running_positions sqrt dt s h0, hc]
    simp [Vector2.add, Vector2.scale]

/-- The effect of `mouseButtonReleased` when no ball moves. -/
theorem mouseButtonReleased_at_rest (sqrt : α → α) (s : GameState α) (x y : α)
    (hz : ∀ i, s.cur_ball_speeds i = ⟨0, 0⟩) :
    mouseButtonReleased sqrt s x y =
      { s with
        isChargingShot := false
        cur_ball_speeds := Function.update s.cur_ball_speeds 0
          ((((Vector2.mk x y).sub (s.cur_ball_positions 0)).scale
            (s.shotChargeProgress / Abs sqrt ((Vector2.mk x y).sub (s.cur_ball_positions 0)))).scale
              6)
        shotChargeProgress := 0 } := by
  unfold mouseButtonReleased
  rw [anyBallMoving_eq_false s hz]
  simp

/-- The effect of `mouseButtonPressed` when no ball moves. -/
theorem mouseButtonPressed_at_rest (s : GameState α) (x y : α)
    (hz : ∀ i, s.cur_ball_speeds i = ⟨0, 0⟩) :
    mouseButtonPressed s x y = { s with isChargingShot := true } := by
  unfold mouseButtonPressed
  rw [anyBallMoving_eq_false s hz]
  simp

theorem collide_of_not_lt (sqrt : α → α) (s : GameState α) (i j : Fin 7) (h : ¬ i < j) :
    collide_two_balls sqrt s i j = s := by
  unfold collide_two_balls
  rw [if_pos (Or.inl (not_lt.1 h))]

theorem checkWalls_none (s : GameState α) (i : Fin 7)
    (h1 : ¬ ((s.cur_ball_positions i).x + radius > 5 / 10 * width))
    (h2 : ¬ ((s.cur_ball_positions i).x < radius - 5 / 10 * width))
    (h3 : ¬ ((s.cur_ball_positions i).y + radius > 5 / 10 * height))
    (h4 : ¬ ((s.cur_ball_positions i).y < radius - 5 / 10 * height)) :
    checkWalls s i = s := by
  unfold checkWalls
  dsimp only
  rw [if_neg h1, if_neg h2, if_neg h3, if_neg h4]

/-- On a free layout `check_collisions` changes no velocity and scores no ball. -/
theorem check_collisions_free (sqrt : α → α) (s : GameState α)
    (h : FreeLayout sqrt s.cur_ball_positions) :
    (check_collisions sqrt s).cur_ball_speeds = s.cur_ball_speeds ∧
      (check_collisions sqrt s).scored = s.scored := by
  have key : (check_collisions sqrt s).cur_ball_positions = s.cur_ball_positions ∧
      (check_collisions sqrt s).cur_ball_speeds = s.cur_ball_speeds ∧
      (check_collisions sqrt s).scored = s.scored := by
    unfold check_collisions
    refine foldl_preserves
      (fun st : GameState α => st.cur_ball_positions = s.cur_ball_positions ∧
        st.cur_ball_speeds = s.cur_ball_speeds ∧ st.scored = s.scored) _ _ _ ⟨rfl, rfl, rfl⟩ ?_
    intro st i _ hst
    obtain ⟨h1, h2, h3, h4, h5, h6⟩ := h i
    unfold checkBall
    split_ifs
    · exact hst
    · rw [← hst.1] at h1 h2 h3 h4 h5
      rw [checkWalls_none st i h1 h2 h3 h4, checkPockets_none sqrt st i h5]
      unfold checkPairs
      refine foldl_preserves
        (fun su : GameState α => su.cur_ball_positions = s.cur_ball_positions ∧
          su.cur_ball_speeds = s.cur_ball_speeds ∧ su.scored = s.scored) _ _ _ hst ?_
      intro su j _ hsu
      by_cases hij : i < j
      · refine ⟨?_, ?_, ?_⟩
        · rw [collide_positions, hsu.1]
        · rw [collide_speeds_far, hsu.2.1]
          rw [hsu.1]
          exact h6 j hij
        · rw [collide_scored, hsu.2.2]
      · rw [collide_of_not_lt sqrt su i j hij]
        exact hsu
  exact key.2

/-- If every scored object ball is at rest, every scored ball is at rest after `update`. -/
theorem update_scoredAtRest (sqrt : α → α) (dt : α) (s : GameState α)
    (h : ∀ i, i ≠ 0 → ScoredAtRest i s) (i : Fin 7) : ScoredAtRest i (update sqrt dt s) := by
  by_cases h0 : s.scored 0 = true
  · intro hi
    unfold update at hi
    rw [if_pos h0] at hi
    cases hi
  · have h0' : s.scored 0 = false := by simpa using h0
    have hs : ScoredAtRest i (chargeStep dt s) := by
      intro hi
      rw [(chargeStep_fields dt s).2.2.1] at hi
      rw [(chargeStep_fields dt s).2.1]
      by_cases hi0 : i = 0
      · subst hi0
        rw [h0'] at hi
        cases hi
      · exact h i hi0 hi
    intro hi
    rw [update_running_scored sqrt dt s h0'] at hi
    rw [update_running_speeds sqrt dt s h0',
      check_collisions_scoredAtRest sqrt _ i hs hi, frictionStep_zero]

/-- In every reachable state the scored object balls (indices 1 to 6) are at rest, and after
one more `update` every scored ball is. -/
theorem reachable_scored_object_balls_at_rest (sqrt : α → α) (s : GameState α)
    (h : Reachable sqrt s) :
    (∀ i, i ≠ 0 → ScoredAtRest i s) ∧ ∀ dt i, ScoredAtRest i (update sqrt dt s) := by
  have hobj : ∀ i, i ≠ 0 → ScoredAtRest i s := by
    induction h with
    | start =>
      intro i _ hi
      cases hi
    | step_update s dt _ _ ih =>
      intro i _
      exact update_scoredAtRest sqrt dt s ih i
    | step_press s x y _ ih =>
      intro i hi0
      unfold mouseButtonPressed
      split_ifs
      · exact ih i hi0
      · exact ih i hi0
    | step_release s x y _ ih =>
      intro i hi0
      unfold mouseButtonReleased
      split_ifs
      · exact ih i hi0
      · intro hi
        have h1 := ih i hi0 hi
        simpa [Function.update_noteq hi0] using h1
  exact ⟨hobj, fun dt i => update_scoredAtRest sqrt dt s hobj i⟩

end Frames



/-! ## Reset on a terminal state -/

section Reset

variable {α : Type} [LinearOrderedField α]

/-- C1: in a state where the cue ball (ball 0) is scored, or where all seven balls are scored,
`update dt` is exactly `init`: the positions are the start layout, all velocities are `(0,0)`,
no ball is scored, every cooldown entry has its initial value 3, and the shot variables are
unchanged; no collision, integration or friction step takes place. -/
theorem update_resets_on_terminal_state (sqrt : α → α) (dt : α) (s : GameState α)
    (h : s.scored 0 = true ∨ ∀ i, s.scored i = true) :
    update sqrt dt s = init s ∧
      (update sqrt dt s).cur_ball_positions = ballsPositions ∧
      (∀ i, (update sqrt dt s).cur_ball_speeds i = ⟨0, 0⟩) ∧
      (∀ i, (update sqrt dt s).scored i = false) ∧
      (∀ i j, (update sqrt dt s).last_collision i j = 3) ∧
      (update sqrt dt s).isChargingShot = s.isChargingShot ∧
      (update sqrt dt s).shotChargeProgress = s.shotChargeProgress := by
  have h0 : s.scored 0 = true := by
    rcases h with h | h
    · exact h
    · exact h 0
  have hu : update sqrt dt s = init s := by
    unfold update
    rw [if_pos h0]
  rw [hu]
  exact ⟨rfl, rfl, fun _ => rfl, fun _ => rfl, fun _ _ => rfl, rfl, rfl⟩

/-- Witness of C1 on a state with the cue ball scored, at `dt = 1/60`. -/
theorem update_resets_on_terminal_state_witness :
    ((cueScoredState : GameState ℝ).scored 0 = true ∨
        ∀ i, (cueScoredState : GameState ℝ).scored i = true) ∧
      update Real.sqrt (1 / 60) (cueScoredState : GameState ℝ) = init cueScoredState ∧
      (update Real.sqrt (1 / 60) (cueScoredState : GameState ℝ)).cur_ball_speeds 3 = ⟨0, 0⟩ ∧
      (update Real.sqrt (1 / 60) (cueScoredState : GameState ℝ)).isChargingShot = true :=
  have h := update_resets_on_terminal_state Real.sqrt (1 / 60) (cueScoredState : GameState ℝ)
    (Or.inl (by simp [cueScoredState]))
  ⟨Or.inl (by simp [cueScoredState]), h.1, h.2.2.1 3, h.2.2.2.2.2.1⟩

end Reset

/-! ## Pocketing -/

section Pocketing

variable {α : Type} [LinearOrderedField α]

/-- C2: a ball that is not scored on entry and whose centre is at distance less than
`pocketRadius` from some pocket centre is scored and has velocity `(0,0)` after
`check_collisions`; a ball that is scored on entry keeps its velocity, its flag and every
cooldown entry of a pair that contains it. -/
theorem check_collisions_pockets_and_scored_balls (sqrt : α → α) (s : GameState α) :
    (∀ i, s.scored i = false →
        (∃ p ∈ pocketsPositions, Abs sqrt (p.sub (s.cur_ball_positions i)) < pocketRadius) →
        (check_collisions sqrt s).scored i = true ∧
          (check_collisions sqrt s).cur_ball_speeds i = ⟨0, 0⟩) ∧
      (∀ k, s.scored k = true →
        (check_collisions sqrt s).cur_ball_speeds k = s.cur_ball_speeds k ∧
          (check_collisions sqrt s).scored k = true ∧
          ∀ a b, a = k ∨ b = k →
            (check_collisions sqrt s).last_collision a b = s.last_collision a b) := by
  constructor
  · rintro i hi ⟨p, hp, hd⟩
    have hsc := check_collisions_scores sqrt s i p hp hd
    have hrest : ScoredAtRest i s := by
      intro h
      rw [hi] at h
      cases h
    exact ⟨hsc, check_collisions_scoredAtRest sqrt s i hrest hsc⟩
  · intro k hk
    have h := check_collisions_frozen sqrt s k hk
    exact ⟨h.2.1, h.1, h.2.2⟩

/-- Witness of C2: ball 1 sits on a pocket centre, ball 2 is scored on entry. -/
theorem check_collisions_pockets_and_scored_balls_witness :
    ((check_collisions Real.sqrt (pocketState : GameState ℝ)).scored 1 = true ∧
        (check_collisions Real.sqrt (pocketState : GameState ℝ)).cur_ball_speeds 1 = ⟨0, 0⟩) ∧
      (check_collisions Real.sqrt (pocketState : GameState ℝ)).cur_ball_speeds 2 = ⟨1, 0⟩ :=
  have h := check_collisions_pockets_and_scored_balls Real.sqrt (pocketState : GameState ℝ)
  ⟨h.1 1 (by simp [pocketState])
      ⟨⟨0, -(5 / 10) * height⟩, by simp [pocketsPositions],
        by norm_num [pocketState, Abs, height, pocketRadius]⟩,
    (h.2 2 (by simp [pocketState])).1⟩

end Pocketing

/-! ## Debounce of the collision response -/

section Debounce

variable {α : Type} [LinearOrderedField α]

/-- C4: for a pair `i < j` of unscored balls whose cooldown entry is 0, `collide_two_balls`
leaves all velocities unchanged and sets the entry to 1, whatever the distance of the two
balls; and `collide_two_balls` changes a velocity only for a pair `i < j` of unscored balls
whose entry, after the capped increment, is at least 2. -/
theorem collide_two_balls_debounce (sqrt : α → α) (s : GameState α) (i j : Fin 7) :
    (i < j → s.scored i = false → s.scored j = false → s.last_collision i j = 0 →
        (collide_two_balls sqrt s i j).cur_ball_speeds = s.cur_ball_speeds ∧
          (collide_two_balls sqrt s i j).last_collision i j = 1) ∧
      ((collide_two_balls sqrt s i j).cur_ball_speeds ≠ s.cur_ball_speeds →
        i < j ∧ s.scored i = false ∧ s.scored j = false ∧
          2 ≤ min (s.last_collision i j + 1) 10) := by
  constructor
  · intro hij hi hj hc
    have hg : ¬ (i ≥ j ∨ s.scored j = true ∨ s.scored i = true) := by
      simp [hi, hj, hij]
    unfold collide_two_balls
    dsimp only
    rw [if_neg hg]
    have h1 : (setCooldown s i j (min (s.last_collision i j + 1) 10)).last_collision i j = 1 := by
      simp [setCooldown, hc]
    split_ifs with h2 h3
    · exact ⟨rfl, h1⟩
    · exact ⟨rfl, h1⟩
    · rw [h1] at h3
      exact absurd (by decide) h3
  · intro hne
    unfold collide_two_balls at hne
    dsimp only at hne
    split_ifs at hne with h1 h2 h3
    · exact absurd rfl hne
    · exact absurd rfl hne
    · exact absurd rfl hne
    · have h4 : (setCooldown s i j (min (s.last_collision i j + 1) 10)).last_collision i j
          = min (s.last_collision i j + 1) 10 := by
        simp [setCooldown]
      rw [h4] at h3
      simp only [not_or, not_le, Bool.not_eq_true] at h1
      exact ⟨h1.1, h1.2.2, h1.2.1, not_lt.1 h3⟩

/-- Witness of C4: balls 0 and 1 overlap with cooldown 0; nothing moves, the entry becomes 1. -/
theorem collide_two_balls_debounce_witness :
    (collide_two_balls Real.sqrt (debounceState : GameState ℝ) 0 1).cur_ball_speeds
        = (debounceState : GameState ℝ).cur_ball_speeds ∧
      (collide_two_balls Real.sqrt (debounceState : GameState ℝ) 0 1).last_collision 0 1 = 1 :=
  (collide_two_balls_debounce Real.sqrt (debounceState : GameState ℝ) 0 1).1
    (by decide) (by simp [debounceState, startState, init])
    (by simp [debounceState, startState, init]) (by simp [debounceState])

end Debounce

/-! ## Shot gating -/

section Gating

variable {α : Type} [LinearOrderedField α]

/-- C6: when some ball has a nonzero velocity, `mouseButtonPressed` and `mouseButtonReleased`
return the state unchanged, for every pointer location. -/
theorem mouse_events_ignored_while_moving (sqrt : α → α) (s : GameState α) (x y : α)
    (h : ∃ i, s.cur_ball_speeds i ≠ ⟨0, 0⟩) :
    mouseButtonPressed s x y = s ∧ mouseButtonReleased sqrt s x y = s := by
  have hm : anyBallMoving s = true := (anyBallMoving_iff s).2 h
  constructor
  · unfold mouseButtonPressed
    rw [if_pos hm]
  · unfold mouseButtonReleased
    rw [if_pos hm]

/-- Witness of C6: ball 3 is moving. -/
theorem mouse_events_ignored_while_moving_witness :
    (∃ i, (movingState : GameState ℝ).cur_ball_speeds i ≠ ⟨0, 0⟩) ∧
      mouseButtonPressed (movingState : GameState ℝ) 2 1 = movingState ∧
      mouseButtonReleased Real.sqrt (movingState : GameState ℝ) 2 1 = movingState :=
  have hex : ∃ i, (movingState : GameState ℝ).cur_ball_speeds i ≠ ⟨0, 0⟩ :=
    ⟨3, by simp [movingState]⟩
  ⟨hex, mouse_events_ignored_while_moving Real.sqrt (movingState : GameState ℝ) 2 1 hex⟩

end Gating

/-! ## Exact real arithmetic: the length of a vector -/

section RealAbs

theorem Abs_nonneg (v : Vector2 ℝ) : 0 ≤ Abs Real.sqrt v := Real.sqrt_nonneg _

theorem Abs_mul_self (v : Vector2 ℝ) :
    Abs Real.sqrt v * Abs Real.sqrt v = v.x * v.x + v.y * v.y :=
  Real.mul_self_sqrt (add_nonneg (mul_self_nonneg _) (mul_self_nonneg _))

theorem Abs_zero : Abs Real.sqrt (⟨0, 0⟩ : Vector2 ℝ) = 0 := by
  simp [Abs]

theorem Abs_eq_zero_iff (v : Vector2 ℝ) : Abs Real.sqrt v = 0 ↔ v = ⟨0, 0⟩ := by
  constructor
  · intro h
    have h1 := Abs_mul_self v
    rw [h] at h1
    have hx : v.x = 0 := by nlinarith [mul_self_nonneg v.x, mul_self_nonneg v.y]
    have hy : v.y = 0 := by nlinarith [mul_self_nonneg v.x, mul_self_nonneg v.y]
    cases v with
    | mk x y =>
      simp only at hx hy
      rw [hx, hy]
  · rintro rfl
    exact Abs_zero

/-- The length of a vector with known squared length. -/
theorem Abs_eq_of_sq (v : Vector2 ℝ) (r : ℝ) (hr : 0 ≤ r) (h : v.x * v.x + v.y * v.y = r * r) :
    Abs Real.sqrt v = r := by
  unfold Abs
  rw [h]
  exact Real.sqrt_mul_self hr

theorem Abs_scale (v : Vector2 ℝ) (c : ℝ) (hc : 0 ≤ c) :
    Abs Real.sqrt (v.scale c) = Abs Real.sqrt v * c := by
  apply Abs_eq_of_sq _ _ (mul_nonneg (Abs_nonneg v) hc)
  have h := Abs_mul_self v
  simp only [Vector2.scale_x, Vector2.scale_y]
  rw [show Abs Real.sqrt v * c * (Abs Real.sqrt v * c)
      = (Abs Real.sqrt v * Abs Real.sqrt v) * (c * c) by ring, h]
  ring

end RealAbs

/-! ## Collision response -/

section Response

/-- The vector `unitNormal` has length 1 when the two centres differ. -/
theorem unitNormal_sq (s : GameState ℝ) (i j : Fin 7)
    (hpos : 0 < Abs Real.sqrt ((s.cur_ball_positions i).sub (s.cur_ball_positions j))) :
    (unitNormal Real.sqrt s i j).x * (unitNormal Real.sqrt s i j).x
      + (unitNormal Real.sqrt s i j).y * (unitNormal Real.sqrt s i j).y = 1 := by
  have hA := Abs_mul_self ((s.cur_ball_positions i).sub (s.cur_ball_positions j))
  simp only [unitNormal]
  rw [div_mul_div_comm, div_mul_div_comm, ← add_div, ← hA]
  exact div_self (mul_self_ne_zero.2 hpos.ne')

/-- C3: in exact real arithmetic, for a pair `i < j` of unscored balls with cooldown entry at
least 1: when `0 < |pos[i] - pos[j]| ≤ 2 * radius`, `collide_two_balls` gives
`v_i' = v_i - ((v_i - v_j)·n) n` and `v_j' = v_j + ((v_i - v_j)·n) n` for the unit vector
`n = (pos[i] - pos[j]) / |pos[i] - pos[j]|`, so the components along `n` are exchanged and the
components perpendicular to `n` are unchanged; and for velocities `(a, 0)` and `(-a, 0)` with
centres on a line parallel to the x axis at distance exactly `2 * radius`, the two velocities
are swapped. -/
theorem collide_two_balls_exchanges_normal_components (s : GameState ℝ) (i j : Fin 7)
    (hij : i < j) (hi : s.scored i = false) (hj : s.scored j = false)
    (hc : 1 ≤ s.last_collision i j) :
    (0 < Abs Real.sqrt ((s.cur_ball_positions i).sub (s.cur_ball_positions j)) →
      Abs Real.sqrt ((s.cur_ball_positions i).sub (s.cur_ball_positions j)) ≤ 2 * radius →
      (collide_two_balls Real.sqrt s i j).cur_ball_speeds i =
          (s.cur_ball_speeds i).sub ((unitNormal Real.sqrt s i j).scale
            (dot ((s.cur_ball_speeds i).sub (s.cur_ball_speeds j)) (unitNormal Real.sqrt s i j))) ∧
        (collide_two_balls Real.sqrt s i j).cur_ball_speeds j =
          (s.cur_ball_speeds j).add ((unitNormal Real.sqrt s i j).scale
            (dot ((s.cur_ball_speeds i).sub (s.cur_ball_speeds j)) (unitNormal Real.sqrt s i j))) ∧
        dot ((collide_two_balls Real.sqrt s i j).cur_ball_speeds i) (unitNormal Real.sqrt s i j) =
          dot (s.cur_ball_speeds j) (unitNormal Real.sqrt s i j) ∧
        dot ((collide_two_balls Real.sqrt s i j).cur_ball_speeds j) (unitNormal Real.sqrt s i j) =
          dot (s.cur_ball_speeds i) (unitNormal Real.sqrt s i j) ∧
        dot ((collide_two_balls Real.sqrt s i j).cur_ball_speeds i)
            (perp (unitNormal Real.sqrt s i j)) =
          dot (s.cur_ball_speeds i) (perp (unitNormal Real.sqrt s i j)) ∧
        dot ((collide_two_balls Real.sqrt s i j).cur_ball_speeds j)
            (perp (unitNormal Real.sqrt s i j)) =
          dot (s.cur_ball_speeds j) (perp (unitNormal Real.sqrt s i j))) ∧
      (∀ a : ℝ, s.cur_ball_speeds i = ⟨a, 0⟩ → s.cur_ball_speeds j = ⟨-a, 0⟩ →
        (s.cur_ball_positions i).y = (s.cur_ball_positions j).y →
        |(s.cur_ball_positions i).x - (s.cur_ball_positions j).x| = 2 * radius →
        (collide_two_balls Real.sqrt s i j).cur_ball_speeds i = ⟨-a, 0⟩ ∧
          (collide_two_balls Real.sqrt s i j).cur_ball_speeds j = ⟨a, 0⟩) := by
  have hg : ¬ (i ≥ j ∨ s.scored j = true ∨ s.scored i = true) := by
    simp [hi, hj, hij]
  have hne : i ≠ j := ne_of_lt hij
  have hcd : ¬ (min (s.last_collision i j + 1) 10 < 2) := by
    rw [not_lt]
    exact le_min (by linarith) (by decide)
  -- the result of the call when the two balls are in contact
  have key : Abs Real.sqrt ((s.cur_ball_positions i).sub (s.cur_ball_positions j)) ≤ 2 * radius →
      (collide_two_balls Real.sqrt s i j).cur_ball_speeds i =
          ⟨dot (s.cur_ball_speeds j) (unitNormal Real.sqrt s i j) * (unitNormal Real.sqrt s i j).x
              - dot (s.cur_ball_speeds i) (perp (unitNormal Real.sqrt s i j))
                * (unitNormal Real.sqrt s i j).y,
            dot (s.cur_ball_speeds j) (unitNormal Real.sqrt s i j) * (unitNormal Real.sqrt s i j).y
              + dot (s.cur_ball_speeds i) (perp (unitNormal Real.sqrt s i j))
                * (unitNormal Real.sqrt s i j).x⟩ ∧
        (collide_two_balls Real.sqrt s i j).cur_ball_speeds j =
          ⟨dot (s.cur_ball_speeds i) (unitNormal Real.sqrt s i j) * (unitNormal Real.sqrt s i j).x
              - dot (s.cur_ball_speeds j) (perp (unitNormal Real.sqrt s i j))
                * (unitNormal Real.sqrt s i j).y,
            dot (s.cur_ball_speeds i) (unitNormal Real.sqrt s i j) * (unitNormal Real.sqrt s i j).y
              + dot (s.cur_ball_speeds j) (perp (unitNormal Real.sqrt s i j))
                * (unitNormal Real.sqrt s i j).x⟩ := by
    intro hnear
    unfold collide_two_balls
    dsimp only
    rw [if_neg hg]
    have h1 : (setCooldown s i j (min (s.last_collision i j + 1) 10)).cur_ball_positions
        = s.cur_ball_positions := rfl
    have h2 : (setCooldown s i j (min (s.last_collision i j + 1) 10)).last_collision i j
        = min (s.last_collision i j + 1) 10 := by simp [setCooldown]
    have h3 : (setCooldown s i j (min (s.last_collision i j + 1) 10)).cur_ball_speeds
        = s.cur_ball_speeds := rfl
    rw [h1, h2, h3, if_neg (not_lt.2 hnear), if_neg hcd]
    constructor
    · simp only [setCooldown, Function.update_noteq hne, Function.update_same, dot, perp,
        unitNormal, Vector2.mk.injEq]
      constructor <;> ring
    · simp only [setCooldown, Function.update_same, dot, perp, unitNormal, Vector2.mk.injEq]
      constructor <;> ring
  constructor
  · intro hpos hnear
    obtain ⟨ki, kj⟩ := key hnear
    have hn := unitNormal_sq s i j hpos
    rw [ki, kj]
    generalize unitNormal Real.sqrt s i j = n at hn
    generalize s.cur_ball_speeds i = vi
    generalize s.cur_ball_speeds j = vj
    obtain ⟨p, q⟩ := n
    obtain ⟨a, b⟩ := vi
    obtain ⟨c, d⟩ := vj
    simp only [dot, perp, Vector2.sub, Vector2.add, Vector2.scale, Vector2.mk.injEq] at hn ⊢
    refine ⟨⟨?_, ?_⟩, ⟨?_, ?_⟩, ?_, ?_, ?_, ?_⟩
    · linear_combination a * hn
    · linear_combination b * hn
    · linear_combination c * hn
    · linear_combination d * hn
    · linear_combination (c * p + d * q) * hn
    · linear_combination (a * p + b * q) * hn
    · linear_combination (-a * q + b * p) * hn
    · linear_combination (-c * q + d * p) * hn
  · intro a hvi hvj hy hx
    have hr : (0 : ℝ) < 2 * radius := by norm_num [radius]
    have hA : Abs Real.sqrt ((s.cur_ball_positions i).sub (s.cur_ball_positions j))
        = 2 * radius := by
      apply Abs_eq_of_sq _ _ hr.le
      rw [← hx, Vector2.sub_x, Vector2.sub_y, hy, sub_self, abs_mul_abs_self]
      ring
    obtain ⟨ki, kj⟩ := key hA.le
    have hn := unitNormal_sq s i j (by rw [hA]; exact hr)
    have hq : (unitNormal Real.sqrt s i j).y = 0 := by
      simp [unitNormal, hy]
    rw [ki, kj, hvi, hvj]
    generalize unitNormal Real.sqrt s i j = n at hn hq
    obtain ⟨p, q⟩ := n
    simp only at hq
    subst hq
    simp only [dot, perp, Vector2.mk.injEq] at hn ⊢
    refine ⟨⟨?_, ?_⟩, ?_, ?_⟩
    · linear_combination (-a) * hn
    · ring
    · linear_combination a * hn
    · ring

/-- Witness of C3: balls 0 and 1 touch on the x axis and approach with velocities `(1, 0)` and
`(-1, 0)`; after the call the velocities are `(-1, 0)` and `(1, 0)`. -/
theorem collide_two_balls_exchanges_normal_components_witness :
    (collide_two_balls Real.sqrt (headOnState : GameState ℝ) 0 1).cur_ball_speeds 0 = ⟨-1, 0⟩ ∧
      (collide_two_balls Real.sqrt (headOnState : GameState ℝ) 0 1).cur_ball_speeds 1 = ⟨1, 0⟩ :=
  (collide_two_balls_exchanges_normal_components (headOnState : GameState ℝ) 0 1 (by decide)
      (by simp [headOnState, startState, init]) (by simp [headOnState, startState, init])
      (by simp [headOnState, startState, init])).2 1
    (by simp [headOnState]) (by simp [headOnState]) (by simp [headOnState])
    (by norm_num [headOnState, radius, abs_of_neg])

end Response

/-! ## Friction -/

section Friction

theorem friction_pos : (0 : ℝ) < friction := by
  norm_num [friction]

theorem frictionStep_small (v : Vector2 ℝ) (h : Abs Real.sqrt v < friction) :
    frictionStep Real.sqrt v = ⟨0, 0⟩ := by
  unfold frictionStep
  rw [if_pos h]

theorem frictionStep_large (v : Vector2 ℝ) (h : friction ≤ Abs Real.sqrt v) :
    frictionStep Real.sqrt v = v.scale ((Abs Real.sqrt v - friction) / Abs Real.sqrt v) := by
  have hA : Abs Real.sqrt v ≠ 0 := (lt_of_lt_of_le friction_pos h).ne'
  unfold frictionStep
  rw [if_neg (not_lt.2 h)]
  simp only [Vector2.sub, Vector2.scale, Vector2.mk.injEq]
  constructor <;> field_simp <;> ring

theorem Abs_frictionStep_large (v : Vector2 ℝ) (h : friction ≤ Abs Real.sqrt v) :
    Abs Real.sqrt (frictionStep Real.sqrt v) = Abs Real.sqrt v - friction := by
  have hA : 0 < Abs Real.sqrt v := lt_of_lt_of_le friction_pos h
  rw [frictionStep_large v h, Abs_scale v _ (div_nonneg (sub_nonneg.2 h) hA.le)]
  field_simp

theorem apply_friction_iterate_speeds (s : GameState ℝ) (k : Fin 7) (n : ℕ) :
    ((apply_friction Real.sqrt)^[n] s).cur_ball_speeds k
      = (frictionStep Real.sqrt)^[n] (s.cur_ball_speeds k) := by
  induction n with
  | zero => rfl
  | succ n ih =>
    rw [Function.iterate_succ_apply', Function.iterate_succ_apply', apply_friction_speeds, ih]

/-- After `n` friction steps the speed is `max (|v| - n * friction) 0` and the velocity is the
initial velocity scaled by a factor between 0 and 1. -/
theorem frictionStep_iterate (v : Vector2 ℝ) (n : ℕ) :
    Abs Real.sqrt ((frictionStep Real.sqrt)^[n] v) = max (Abs Real.sqrt v - n * friction) 0 ∧
      ∃ c : ℝ, 0 ≤ c ∧ c ≤ 1 ∧ (frictionStep Real.sqrt)^[n] v = v.scale c := by
  induction n with
  | zero =>
    refine ⟨?_, 1, zero_le_one, le_refl 1, ?_⟩
    · simp [Abs_nonneg]
    · simp [Vector2.scale]
  | succ n ih =>
    obtain ⟨hA, c, hc0, hc1, hv⟩ := ih
    rw [Function.iterate_succ_apply']
    have hf := friction_pos
    by_cases hs : Abs Real.sqrt ((frictionStep Real.sqrt)^[n] v) < friction
    · rw [frictionStep_small _ hs, Abs_zero]
      refine ⟨?_, 0, le_refl 0, zero_le_one, ?_⟩
      · rw [hA] at hs
        have h1 : Abs Real.sqrt v - n * friction < friction := lt_of_le_of_lt (le_max_left _ _) hs
        rw [max_eq_right]
        push_cast
        linarith
      · simp [Vector2.scale]
    · have hs' : friction ≤ Abs Real.sqrt ((frictionStep Real.sqrt)^[n] v) := not_lt.1 hs
      have hpos : 0 < Abs Real.sqrt ((frictionStep Real.sqrt)^[n] v) := lt_of_lt_of_le hf hs'
      have hmax : Abs Real.sqrt ((frictionStep Real.sqrt)^[n] v)
          = Abs Real.sqrt v - n * friction := by
        rw [hA]
        apply max_eq_left
        by_contra hneg
        rw [hA, max_eq_right (le_of_lt (not_le.1 hneg))] at hpos
        exact lt_irrefl _ hpos
      refine ⟨?_, c * ((Abs Real.sqrt ((frictionStep Real.sqrt)^[n] v) - friction)
          / Abs Real.sqrt ((frictionStep Real.sqrt)^[n] v)), ?_, ?_, ?_⟩
      · rw [Abs_frictionStep_large _ hs', hmax, max_eq_left]
        · push_cast
          ring
        · push_cast
          linarith
      · exact mul_nonneg hc0 (div_nonneg (sub_nonneg.2 hs') hpos.le)
      · have h1 : (Abs Real.sqrt ((frictionStep Real.sqrt)^[n] v) - friction)
            / Abs Real.sqrt ((frictionStep Real.sqrt)^[n] v) ≤ 1 := by
          rw [div_le_one hpos]
          linarith
        calc c * ((Abs Real.sqrt ((frictionStep Real.sqrt)^[n] v) - friction)
                / Abs Real.sqrt ((frictionStep Real.sqrt)^[n] v))
            ≤ 1 * 1 := mul_le_mul hc1 h1 (div_nonneg (sub_nonneg.2 hs') hpos.le) zero_le_one
          _ = 1 := one_mul 1
      · rw [frictionStep_large _ hs']
        generalize (Abs Real.sqrt ((frictionStep Real.sqrt)^[n] v) - friction)
          / Abs Real.sqrt ((frictionStep Real.sqrt)^[n] v) = e
        rw [hv]
        simp only [Vector2.scale, Vector2.mk.injEq]
        constructor <;> ring

/-- C5: in exact real arithmetic, one `apply_friction` step sets a velocity `v` to `(0,0)` when
`|v| < friction`, and otherwise to `v` scaled by `(|v| - friction) / |v|`, a velocity of speed
`|v| - friction` in the direction of `v`; under repeated `apply_friction` the speed never
increases, the components never change sign, and the velocity is `(0,0)` after
`floor(|v| / friction) + 1` steps and after every later step. -/
theorem apply_friction_decelerates (s : GameState ℝ) (i : Fin 7) :
    (Abs Real.sqrt (s.cur_ball_speeds i) < friction →
        (apply_friction Real.sqrt s).cur_ball_speeds i = ⟨0, 0⟩) ∧
      (friction ≤ Abs Real.sqrt (s.cur_ball_speeds i) →
        (apply_friction Real.sqrt s).cur_ball_speeds i =
            (s.cur_ball_speeds i).scale
              ((Abs Real.sqrt (s.cur_ball_speeds i) - friction)
                / Abs Real.sqrt (s.cur_ball_speeds i)) ∧
          0 ≤ (Abs Real.sqrt (s.cur_ball_speeds i) - friction)
                / Abs Real.sqrt (s.cur_ball_speeds i) ∧
          Abs Real.sqrt ((apply_friction Real.sqrt s).cur_ball_speeds i) =
            Abs Real.sqrt (s.cur_ball_speeds i) - friction) ∧
      (∀ n : ℕ, Abs Real.sqrt (((apply_friction Real.sqrt)^[n + 1] s).cur_ball_speeds i) ≤
        Abs Real.sqrt (((apply_friction Real.sqrt)^[n] s).cur_ball_speeds i)) ∧
      (∀ n m : ℕ,
        0 ≤ (((apply_friction Real.sqrt)^[n] s).cur_ball_speeds i).x *
              (((apply_friction Real.sqrt)^[m] s).cur_ball_speeds i).x ∧
          0 ≤ (((apply_friction Real.sqrt)^[n] s).cur_ball_speeds i).y *
              (((apply_friction Real.sqrt)^[m] s).cur_ball_speeds i).y) ∧
      (∀ n : ℕ, ⌊Abs Real.sqrt (s.cur_ball_speeds i) / friction⌋₊ + 1 ≤ n →
        ((apply_friction Real.sqrt)^[n] s).cur_ball_speeds i = ⟨0, 0⟩) := by
  have hf := friction_pos
  refine ⟨?_, ?_, ?_, ?_, ?_⟩
  · intro h
    rw [apply_friction_speeds, frictionStep_small _ h]
  · intro h
    have hpos : 0 < Abs Real.sqrt (s.cur_ball_speeds i) := lt_of_lt_of_le hf h
    rw [apply_friction_speeds]
    exact ⟨frictionStep_large _ h, div_nonneg (sub_nonneg.2 h) hpos.le,
      Abs_frictionStep_large _ h⟩
  · intro n
    rw [apply_friction_iterate_speeds, apply_friction_iterate_speeds,
      (frictionStep_iterate _ (n + 1)).1, (frictionStep_iterate _ n).1]
    apply max_le_max _ (le_refl 0)
    push_cast
    linarith
  · intro n m
    rw [apply_friction_iterate_speeds, apply_friction_iterate_speeds]
    obtain ⟨_, c, hc0, _, hv⟩ := frictionStep_iterate (s.cur_ball_speeds i) n
    obtain ⟨_, d, hd0, _, hw⟩ := frictionStep_iterate (s.cur_ball_speeds i) m
    rw [hv, hw]
    simp only [Vector2.scale_x, Vector2.scale_y]
    constructor
    · have h1 : 0 ≤ (s.cur_ball_speeds i).x * (s.cur_ball_speeds i).x * (c * d) :=
        mul_nonneg (mul_self_nonneg _) (mul_nonneg hc0 hd0)
      linarith
    · have h1 : 0 ≤ (s.cur_ball_speeds i).y * (s.cur_ball_speeds i).y * (c * d) :=
        mul_nonneg (mul_self_nonneg _) (mul_nonneg hc0 hd0)
      linarith
  · intro n hn
    rw [apply_friction_iterate_speeds, ← Abs_eq_zero_iff, (frictionStep_iterate _ n).1]
    apply max_eq_right
    have h1 : Abs Real.sqrt (s.cur_ball_speeds i) / friction
        < ⌊Abs Real.sqrt (s.cur_ball_speeds i) / friction⌋₊ + 1 := Nat.lt_floor_add_one _
    have h2 : ((⌊Abs Real.sqrt (s.cur_ball_speeds i) / friction⌋₊ + 1 : ℕ) : ℝ) ≤ n := by
      exact_mod_cast hn
    push_cast at h2
    have h3 : Abs Real.sqrt (s.cur_ball_speeds i) / friction < n := lt_of_lt_of_le h1 h2
    rw [div_lt_iff₀ hf] at h3
    linarith

theorem slowingState_speed :
    Abs Real.sqrt ((slowingState : GameState ℝ).cur_ball_speeds 4) = 5 / 100 := by
  apply Abs_eq_of_sq _ _ (by norm_num)
  norm_num [slowingState]

/-- Witness of C5: ball 4 has speed `5/100`; one step leaves speed `4/100`, and after 6 steps
the velocity is `(0,0)`. -/
theorem apply_friction_decelerates_witness :
    friction ≤ Abs Real.sqrt ((slowingState : GameState ℝ).cur_ball_speeds 4) ∧
      Abs Real.sqrt ((apply_friction Real.sqrt (slowingState : GameState ℝ)).cur_ball_speeds 4)
        = Abs Real.sqrt ((slowingState : GameState ℝ).cur_ball_speeds 4) - friction ∧
      ((apply_friction Real.sqrt)^[6] (slowingState : GameState ℝ)).cur_ball_speeds 4
        = ⟨0, 0⟩ :=
  have h := apply_friction_decelerates (slowingState : GameState ℝ) 4
  have hle : friction ≤ Abs Real.sqrt ((slowingState : GameState ℝ).cur_ball_speeds 4) := by
    rw [slowingState_speed]
    norm_num [friction]
  ⟨hle, (h.2.1 hle).2.2, h.2.2.2.2 6 (by
    rw [slowingState_speed]
    norm_num [friction])⟩

end Friction

/-! ## The shot -/

section Shot

/-- C7: in exact real arithmetic, when all seven velocities are `(0,0)` and the release point
`p = (x, y)` differs from the cue ball position, `mouseButtonReleased` sets the cue ball
velocity to `shotChargeProgress * 6 * (p - pos[0]) / |p - pos[0]|` (progress as held before
the call), a velocity of length `6 * |shotChargeProgress|`, sets `isChargingShot` to false and
`shotChargeProgress` to 0, and leaves the other velocities, the positions, the scored flags
and the cooldowns unchanged. -/
theorem mouseButtonReleased_sets_cue_velocity (s : GameState ℝ) (x y : ℝ)
    (hz : ∀ i, s.cur_ball_speeds i = ⟨0, 0⟩)
    (hp : (Vector2.mk x y) ≠ s.cur_ball_positions 0) :
    (mouseButtonReleased Real.sqrt s x y).cur_ball_speeds 0 =
        ⟨s.shotChargeProgress * 6 * (x - (s.cur_ball_positions 0).x)
            / Abs Real.sqrt ((Vector2.mk x y).sub (s.cur_ball_positions 0)),
          s.shotChargeProgress * 6 * (y - (s.cur_ball_positions 0).y)
            / Abs Real.sqrt ((Vector2.mk x y).sub (s.cur_ball_positions 0))⟩ ∧
      Abs Real.sqrt ((mouseButtonReleased Real.sqrt s x y).cur_ball_speeds 0)
        = 6 * |s.shotChargeProgress| ∧
      (mouseButtonReleased Real.sqrt s x y).isChargingShot = false ∧
      (mouseButtonReleased Real.sqrt s x y).shotChargeProgress = 0 ∧
      (∀ i, i ≠ 0 →
        (mouseButtonReleased Real.sqrt s x y).cur_ball_speeds i = s.cur_ball_speeds i) ∧
      (mouseButtonReleased Real.sqrt s x y).cur_ball_positions = s.cur_ball_positions ∧
      (mouseButtonReleased Real.sqrt s x y).scored = s.scored ∧
      (mouseButtonReleased Real.sqrt s x y).last_collision = s.last_collision := by
  rw [mouseButtonReleased_at_rest Real.sqrt s x y hz]
  have hd : (Vector2.mk x y).sub (s.cur_ball_positions 0) ≠ ⟨0, 0⟩ := by
    intro h
    apply hp
    have hx : x - (s.cur_ball_positions 0).x = 0 := congrArg Vector2.x h
    have hy : y - (s.cur_ball_positions 0).y = 0 := congrArg Vector2.y h
    cases hpos : s.cur_ball_positions 0 with
    | mk a b =>
      rw [hpos] at hx hy
      simp only at hx hy
      rw [sub_eq_zero.1 hx, sub_eq_zero.1 hy]
  have hA0 : Abs Real.sqrt ((Vector2.mk x y).sub (s.cur_ball_positions 0)) ≠ 0 :=
    fun h => hd ((Abs_eq_zero_iff _).1 h)
  have hA := Abs_mul_self ((Vector2.mk x y).sub (s.cur_ball_positions 0))
  refine ⟨?_, ?_, rfl, rfl, ?_, rfl, rfl, rfl⟩
  · simp only [Function.update_same, Vector2.scale, Vector2.sub, Vector2.mk.injEq]
    constructor <;> ring
  · simp only [Function.update_same]
    apply Abs_eq_of_sq _ _ (mul_nonneg (by norm_num) (abs_nonneg _))
    generalize Abs Real.sqrt ((Vector2.mk x y).sub (s.cur_ball_positions 0)) = A at hA hA0
    generalize (Vector2.mk x y).sub (s.cur_ball_positions 0) = d at hA
    simp only [Vector2.scale_x, Vector2.scale_y]
    have h1 : d.x * (s.shotChargeProgress / A) * 6 * (d.x * (s.shotChargeProgress / A) * 6)
        + d.y * (s.shotChargeProgress / A) * 6 * (d.y * (s.shotChargeProgress / A) * 6)
        = (d.x * d.x + d.y * d.y) / (A * A) * (36 * (s.shotChargeProgress * s.shotChargeProgress)) := by
      field_simp
      ring
    rw [h1, ← hA, div_self (mul_self_ne_zero.2 hA0)]
    have h2 := abs_mul_abs_self s.shotChargeProgress
    linear_combination (-36) * h2
  · intro i hi
    simp only [Function.update_noteq hi]

/-- Witness of C7: a half-charged shot released one unit east of the cue ball gives the cue
ball the velocity `(3, 0)`. -/
theorem mouseButtonReleased_sets_cue_velocity_witness :
    (mouseButtonReleased Real.sqrt (chargedState : GameState ℝ) (-(35 / 10)) 0).cur_ball_speeds 0
        = ⟨3, 0⟩ ∧
      (mouseButtonReleased Real.sqrt (chargedState : GameState ℝ) (-(35 / 10)) 0).isChargingShot
        = false ∧
      (mouseButtonReleased Real.sqrt (chargedState : GameState ℝ) (-(35 / 10)) 0).shotChargeProgress
        = 0 :=
  have h := mouseButtonReleased_sets_cue_velocity (chargedState : GameState ℝ) (-(35 / 10)) 0
    (by intro i; simp [chargedState, startState, init])
    (by norm_num [chargedState, startState, init, ballsPositions, width])
  have hA : Abs Real.sqrt ((Vector2.mk (-(35 / 10) : ℝ) 0).sub
      ((chargedState : GameState ℝ).cur_ball_positions 0)) = 1 := by
    apply Abs_eq_of_sq _ _ zero_le_one
    norm_num [chargedState, startState, init, ballsPositions, width]
  ⟨by
      rw [h.1, hA]
      norm_num [chargedState, startState, init, ballsPositions, width],
    h.2.2.1, h.2.2.2.1⟩

/-- The state after a press and one `update` from the start state: nothing moves, the balls
are on the start layout and the progress is `min (dt / chargeTime) 1`. -/
theorem charged_from_start {α : Type} [LinearOrderedField α] (sqrt : α → α) (x y dt : α) :
    (∀ i, (update sqrt dt (mouseButtonPressed startState x y)).cur_ball_speeds i = ⟨0, 0⟩) ∧
      (update sqrt dt (mouseButtonPressed startState x y)).cur_ball_positions = ballsPositions ∧
      (update sqrt dt (mouseButtonPressed startState x y)).shotChargeProgress
        = min (dt / chargeTime) 1 ∧
      (update sqrt dt (mouseButtonPressed startState x y)).isChargingShot = true := by
  have hp : mouseButtonPressed (startState : GameState α) x y
      = { (startState : GameState α) with isChargingShot := true } :=
    mouseButtonPressed_at_rest startState x y (fun _ => rfl)
  rw [hp]
  have h0 : ({ (startState : GameState α) with isChargingShot := true } : GameState α).scored 0
      = false := rfl
  have hr := update_at_rest sqrt dt _ h0 (fun _ => rfl)
  have hs := update_running_shot sqrt dt _ h0
  refine ⟨hr.1, hr.2, ?_, hs.1⟩
  rw [hs.2]
  simp [chargeStep, startState, init]

end Shot

/-! ## The end of the game -/

section Terminal

/-- C9 (the code at the failing input): with the six object balls scored and the cue ball on
the table, `update` does not reset the game; the six balls are still scored afterwards. -/
theorem update_does_not_reset_when_object_balls_scored :
    (∀ i, i ≠ 0 → (objectBallsScoredState : GameState ℝ).scored i = true) ∧
      (∀ i, i ≠ 0 →
        (update Real.sqrt (1 / 60) (objectBallsScoredState : GameState ℝ)).scored i = true) ∧
      update Real.sqrt (1 / 60) (objectBallsScoredState : GameState ℝ)
        ≠ init objectBallsScoredState := by
  have h0 : (objectBallsScoredState : GameState ℝ).scored 0 = false := by
    simp [objectBallsScoredState]
  have h1 : ∀ i, i ≠ 0 → (objectBallsScoredState : GameState ℝ).scored i = true := by
    intro i hi
    simp [objectBallsScoredState, hi]
  have h2 : ∀ i, i ≠ 0 →
      (update Real.sqrt (1 / 60) (objectBallsScoredState : GameState ℝ)).scored i = true := by
    intro i hi
    rw [update_running_scored Real.sqrt _ _ h0]
    apply check_collisions_scored_mono
    rw [(chargeStep_fields _ _).2.2.1]
    exact h1 i hi
  refine ⟨h1, h2, ?_⟩
  intro h
  have h3 := h2 1 (by decide)
  rw [h] at h3
  simp [init] at h3

end Terminal

/-! ## Scored balls and the shot -/

section ScoredShot

theorem Abs_gt_of_sq (v : Vector2 ℝ) (c : ℝ) (hc : 0 ≤ c) (h : c ^ 2 < v.x * v.x + v.y * v.y) :
    Abs Real.sqrt v > c :=
  (Real.lt_sqrt hc).2 h

theorem Abs_lt_of_sq (v : Vector2 ℝ) (c : ℝ) (hc : 0 < c) (h : v.x * v.x + v.y * v.y < c ^ 2) :
    Abs Real.sqrt v < c :=
  (Real.sqrt_lt' hc).2 h

theorem Abs_not_lt_of_sq (v : Vector2 ℝ) (c : ℝ) (hc : 0 ≤ c)
    (h : c ^ 2 ≤ v.x * v.x + v.y * v.y) : ¬ Abs Real.sqrt v < c :=
  not_lt.2 ((Real.le_sqrt hc (add_nonneg (mul_self_nonneg _) (mul_self_nonneg _))).2 h)

/-- The object balls of the start layout lie in the box `3 ≤ x ≤ 4.5`, `|y| ≤ 0.8`. -/
theorem objectBall_bounds (i : Fin 7) (hi : i ≠ 0) :
    3 ≤ (ballsPositions i : Vector2 ℝ).x ∧ (ballsPositions i : Vector2 ℝ).x ≤ 45 / 10 ∧
      -(8 / 10) ≤ (ballsPositions i : Vector2 ℝ).y ∧
      (ballsPositions i : Vector2 ℝ).y ≤ 8 / 10 := by
  fin_cases i
  · exact absurd rfl hi
  · simp only [Fin.mk_one, ballsPositions_1, width, height]
    norm_num
  · rw [show (⟨2, by decide⟩ : Fin 7) = 2 from rfl, ballsPositions_2]
    norm_num [width, height]
  · rw [show (⟨3, by decide⟩ : Fin 7) = 3 from rfl, ballsPositions_3]
    norm_num [width, height]
  · rw [show (⟨4, by decide⟩ : Fin 7) = 4 from rfl, ballsPositions_4]
    norm_num [width, height]
  · rw [show (⟨5, by decide⟩ : Fin 7) = 5 from rfl, ballsPositions_5]
    norm_num [width, height]
  · rw [show (⟨6, by decide⟩ : Fin 7) = 6 from rfl, ballsPositions_6]
    norm_num [width, height]

/-- A point with `|y| ≤ 3.5` lies in no pocket. -/
theorem pockets_far_of_y (q : Vector2 ℝ) (h1 : -(35 / 10) ≤ q.y) (h2 : q.y ≤ 35 / 10) :
    ∀ p ∈ pocketsPositions, ¬ Abs Real.sqrt (p.sub q) < pocketRadius := by
  intro p hp
  apply Abs_not_lt_of_sq _ _ (by norm_num [pocketRadius])
  simp only [pocketsPositions, List.mem_cons, List.mem_singleton, List.not_mem_nil,
    or_false] at hp
  rcases hp with rfl | rfl | rfl | rfl | rfl | rfl <;>
    simp only [Vector2.sub_x, Vector2.sub_y, width, height, pocketRadius] <;>
    nlinarith [mul_self_nonneg (q.x + 74 / 10), mul_self_nonneg q.x,
      mul_self_nonneg (q.x - 74 / 10)]

/-- The points of the flight path of the cue ball up to `t = 4.45` lie in no pocket. -/
theorem pockets_far_of_flight (t : ℝ) (h0 : 0 ≤ t) (h1 : t ≤ 445 / 100) :
    ∀ p ∈ pocketsPositions,
      ¬ Abs Real.sqrt (p.sub ⟨-(45 / 10) - 6 / 10 * t, 8 / 10 * t⟩) < pocketRadius := by
  intro p hp
  apply Abs_not_lt_of_sq _ _ (by norm_num [pocketRadius])
  simp only [pocketsPositions, List.mem_cons, List.mem_singleton, List.not_mem_nil,
    or_false] at hp
  rcases hp with rfl | rfl | rfl | rfl | rfl | rfl <;>
    simp only [Vector2.sub_x, Vector2.sub_y, width, height, pocketRadius] <;>
    nlinarith [mul_self_nonneg t, mul_nonneg h0 h0, mul_nonneg (sub_nonneg.2 h1) (sub_nonneg.2 h1),
      mul_nonneg h0 (sub_nonneg.2 h1)]

/-- Two object balls of the start layout are more than `2 * radius` apart. -/
theorem objectBalls_apart (i j : Fin 7) (hi : i ≠ 0) (hij : i < j) :
    Abs Real.sqrt ((ballsPositions i : Vector2 ℝ).sub (ballsPositions j)) > 2 * radius := by
  apply Abs_gt_of_sq _ _ (by norm_num [radius])
  fin_cases i <;> fin_cases j <;>
    first
      | exact absurd hij (by decide)
      | exact absurd rfl hi
      | (simp only [Vector2.sub_x, Vector2.sub_y, radius]
         norm_num [ballsPositions, width, height])

/-- A point with `x ≤ 0` and a point with `3 ≤ x` are more than `2 * radius` apart. -/
theorem apart_of_x (q r : Vector2 ℝ) (hq : q.x ≤ 0) (hr : 3 ≤ r.x) :
    Abs Real.sqrt (q.sub r) > 2 * radius := by
  apply Abs_gt_of_sq _ _ (by norm_num [radius])
  simp only [Vector2.sub_x, Vector2.sub_y, radius]
  nlinarith [mul_self_nonneg (q.y - r.y), mul_self_nonneg (q.x - r.x + 3)]

/-- The start layout with the cue ball moved a distance `t ≤ 4.45` along the direction
`(-3, 4) / 5` is a free layout. -/
theorem flightLayout_free (t : ℝ) (h0 : 0 ≤ t) (h1 : t ≤ 445 / 100) :
    FreeLayout Real.sqrt
      (Function.update ballsPositions 0 ⟨-(45 / 10) - 6 / 10 * t, 8 / 10 * t⟩) := by
  intro i
  by_cases hi : i = 0
  · subst hi
    simp only [Function.update_same]
    refine ⟨?_, ?_, ?_, ?_, pockets_far_of_flight t h0 h1, ?_⟩
    · norm_num [radius, width]
      linarith
    · norm_num [radius, width]
      linarith
    · norm_num [radius, height]
      linarith
    · norm_num [radius, height]
      linarith
    · intro j hj
      have hj0 : j ≠ 0 := ne_of_gt hj
      rw [Function.update_noteq hj0]
      apply apart_of_x
      · simp only
        linarith
      · exact (objectBall_bounds j hj0).1
  · rw [Function.update_noteq hi]
    obtain ⟨b1, b2, b3, b4⟩ := objectBall_bounds i hi
    refine ⟨?_, ?_, ?_, ?_, pockets_far_of_y _ (by linarith) (by linarith), ?_⟩
    · norm_num [radius, width]
      linarith
    · norm_num [radius, width]
      linarith
    · norm_num [radius, height]
      linarith
    · norm_num [radius, height]
      linarith
    · intro j hj
      have hj0 : j ≠ 0 := fun h => by
        rw [h] at hj
        exact absurd hj (Fin.not_lt_zero i)
      rw [Function.update_noteq hj0]
      exact objectBalls_apart i j hi hj

/-- One `update` of a cue ball in flight: the ball advances by `w * dt` and loses `friction`
of its speed. -/
theorem flight_step (s : GameState ℝ) (t w dt t' w' : ℝ) (h : InFlight t w s)
    (ht0 : 0 ≤ t) (ht1 : t ≤ 445 / 100) (hw : friction ≤ w)
    (ht' : t' = t + w * dt) (hw' : w' = w - friction) :
    InFlight t' w' (update Real.sqrt dt s) := by
  obtain ⟨hch, hpr, hpos, hsp, hsc⟩ := h
  have h0 : s.scored 0 = false := by rw [hsc]
  have hcs : chargeStep dt s = s := by
    unfold chargeStep
    rw [hch]
    simp
  have hfree := check_collisions_free Real.sqrt s (by
    rw [hpos]
    exact flightLayout_free t ht0 ht1)
  have hshot := update_running_shot Real.sqrt dt s h0
  have hwpos : 0 < w := lt_of_lt_of_le friction_pos hw
  refine ⟨hshot.1.trans hch, ?_, ?_, ?_, ?_⟩
  · rw [hshot.2, hcs, hpr]
  · funext k
    rw [update_running_positions Real.sqrt dt s h0, hcs, hfree.1, hpos, hsp]
    by_cases hk : k = 0
    · subst hk
      simp only [Function.update_same, Vector2.add, Vector2.scale, Vector2.mk.injEq]
      rw [ht']
      constructor <;> ring
    · simp only [Function.update_noteq hk, Vector2.add, Vector2.scale]
      simp
  · funext k
    rw [update_running_speeds Real.sqrt dt s h0, hcs, hfree.1, hsp]
    by_cases hk : k = 0
    · subst hk
      simp only [Function.update_same]
      have hA : Abs Real.sqrt (⟨-(6 / 10) * w, 8 / 10 * w⟩ : Vector2 ℝ) = w := by
        apply Abs_eq_of_sq _ _ hwpos.le
        simp only
        ring
      rw [frictionStep_large _ (by rw [hA]; exact hw), hA, hw']
      simp only [Vector2.scale, Vector2.mk.injEq]
      constructor <;> (field_simp; ring)
    · simp only [Function.update_noteq hk]
      exact frictionStep_zero Real.sqrt
  · rw [update_running_scored Real.sqrt dt s h0, hcs, hfree.2, hsc]

theorem traceCharged_facts :
    (∀ i, (traceCharged Real.sqrt).cur_ball_speeds i = ⟨0, 0⟩) ∧
      (traceCharged Real.sqrt).cur_ball_positions = ballsPositions ∧
      (traceCharged Real.sqrt).shotChargeProgress = 1 / 60 ∧
      (traceCharged Real.sqrt).scored = fun _ => false := by
  obtain ⟨h1, h2, h3, _⟩ := charged_from_start Real.sqrt (0 : ℝ) 0 (1 / 60)
  refine ⟨h1, h2, ?_, ?_⟩
  · unfold traceCharged
    rw [h3, min_eq_left] <;> norm_num [chargeTime]
  · unfold traceCharged
    rw [mouseButtonPressed_at_rest startState 0 0 (fun _ => rfl)]
    rw [update_running_scored Real.sqrt _ _ rfl]
    have hfree := check_collisions_free Real.sqrt
      (chargeStep (1 / 60) { (startState : GameState ℝ) with isChargingShot := true }) (by
        rw [(chargeStep_fields _ _).1]
        have h := flightLayout_free 0 (le_refl 0) (by norm_num)
        have e : (Function.update ballsPositions 0
            (⟨-(45 / 10) - 6 / 10 * 0, 8 / 10 * 0⟩ : Vector2 ℝ)) = ballsPositions := by
          apply Function.update_eq_self_iff.2
          rw [ballsPositions_0]
          norm_num [width]
        rw [e] at h
        exact h)
    rw [hfree.2, (chargeStep_fields _ _).2.2.1]
    rfl

theorem traceShot_inFlight : InFlight 0 (1 / 10) (traceShot Real.sqrt) := by
  obtain ⟨h1, h2, h3, h4⟩ := traceCharged_facts
  unfold traceShot
  rw [mouseButtonReleased_at_rest Real.sqrt _ _ _ h1]
  have hA : Abs Real.sqrt ((Vector2.mk (-(75 / 10) : ℝ) 4).sub
      ((traceCharged Real.sqrt).cur_ball_positions 0)) = 5 := by
    apply Abs_eq_of_sq _ _ (by norm_num)
    rw [h2, ballsPositions_0]
    norm_num [width]
  refine ⟨rfl, rfl, ?_, ?_, h4⟩
  · show (traceCharged Real.sqrt).cur_ball_positions = _
    rw [h2]
    symm
    apply Function.update_eq_self_iff.2
    rw [ballsPositions_0]
    norm_num [width]
  · show Function.update (traceCharged Real.sqrt).cur_ball_speeds 0 _ = _
    rw [hA, h3, h2, ballsPositions_0]
    have e : (traceCharged Real.sqrt).cur_ball_speeds = fun _ => ⟨0, 0⟩ := funext h1
    rw [e]
    refine congrArg (Function.update (fun _ => (⟨0, 0⟩ : Vector2 ℝ)) 0) ?_
    simp only [Vector2.scale, Vector2.sub, Vector2.mk.injEq]
    constructor <;> norm_num [width]

theorem traceStopped_inFlight : InFlight (45 / 10) 0 (traceStopped Real.sqrt) := by
  have f0 := traceShot_inFlight
  have f1 := flight_step _ 0 (1 / 10) 40 4 (9 / 100) f0
    (by norm_num) (by norm_num) (by norm_num [friction]) (by norm_num) (by norm_num [friction])
  have f2 := flight_step _ 4 (9 / 100) 1 (409 / 100) (8 / 100) f1
    (by norm_num) (by norm_num) (by norm_num [friction]) (by norm_num) (by norm_num [friction])
  have f3 := flight_step _ (409 / 100) (8 / 100) 1 (417 / 100) (7 / 100) f2
    (by norm_num) (by norm_num) (by norm_num [friction]) (by norm_num) (by norm_num [friction])
  have f4 := flight_step _ (417 / 100) (7 / 100) 1 (424 / 100) (6 / 100) f3
    (by norm_num) (by norm_num) (by norm_num [friction]) (by norm_num) (by norm_num [friction])
  have f5 := flight_step _ (424 / 100) (6 / 100) 1 (430 / 100) (5 / 100) f4
    (by norm_num) (by norm_num) (by norm_num [friction]) (by norm_num) (by norm_num [friction])
  have f6 := flight_step _ (430 / 100) (5 / 100) 1 (435 / 100) (4 / 100) f5
    (by norm_num) (by norm_num) (by norm_num [friction]) (by norm_num) (by norm_num [friction])
  have f7 := flight_step _ (435 / 100) (4 / 100) 1 (439 / 100) (3 / 100) f6
    (by norm_num) (by norm_num) (by norm_num [friction]) (by norm_num) (by norm_num [friction])
  have f8 := flight_step _ (439 / 100) (3 / 100) 1 (442 / 100) (2 / 100) f7
    (by norm_num) (by norm_num) (by norm_num [friction]) (by norm_num) (by norm_num [friction])
  have f9 := flight_step _ (442 / 100) (2 / 100) 1 (444 / 100) (1 / 100) f8
    (by norm_num) (by norm_num) (by norm_num [friction]) (by norm_num) (by norm_num [friction])
  exact flight_step _ (444 / 100) (1 / 100) 6 (45 / 10) 0 f9
    (by norm_num) (by norm_num) (by norm_num [friction]) (by norm_num) (by norm_num [friction])

theorem tracePocketed_facts :
    (∀ i, (tracePocketed Real.sqrt).cur_ball_speeds i = ⟨0, 0⟩) ∧
      (tracePocketed Real.sqrt).cur_ball_positions 0 = ⟨-(72 / 10), 36 / 10⟩ ∧
      (tracePocketed Real.sqrt).shotChargeProgress = 1 / 60 ∧
      (tracePocketed Real.sqrt).scored 0 = true := by
  obtain ⟨hch, hpr, hpos, hsp, hsc⟩ := traceStopped_inFlight
  have hz : ∀ i, (traceStopped Real.sqrt).cur_ball_speeds i = ⟨0, 0⟩ := by
    intro i
    rw [hsp]
    by_cases hi : i = 0
    · subst hi
      simp
    · simp [Function.update_noteq hi]
  have hp0 : (traceStopped Real.sqrt).cur_ball_positions 0 = ⟨-(72 / 10), 36 / 10⟩ := by
    rw [hpos, Function.update_same]
    simp only [Vector2.mk.injEq]
    constructor <;> norm_num
  unfold tracePocketed
  rw [mouseButtonPressed_at_rest _ 0 0 hz]
  have h0 : ({ traceStopped Real.sqrt with isChargingShot := true } : GameState ℝ).scored 0
      = false := by
    show (traceStopped Real.sqrt).scored 0 = false
    rw [hsc]
  have hr := update_at_rest Real.sqrt (1 / 60) _ h0 hz
  refine ⟨hr.1, ?_, ?_, ?_⟩
  · rw [hr.2]
    exact hp0
  · rw [(update_running_shot Real.sqrt _ _ h0).2]
    unfold chargeStep
    simp only [if_true]
    rw [hpr, min_eq_left] <;> norm_num [chargeTime]
  · rw [update_running_scored Real.sqrt _ _ h0]
    apply check_collisions_scores Real.sqrt _ 0
      ⟨-(5 / 10) * width + 1 / 10, 5 / 10 * height - 1 / 10⟩
    · simp [pocketsPositions]
    · rw [(chargeStep_fields _ _).1]
      show Abs Real.sqrt (Vector2.sub _ ((traceStopped Real.sqrt).cur_ball_positions 0)) < _
      rw [hp0]
      apply Abs_lt_of_sq _ _ (by norm_num [pocketRadius])
      norm_num [width, height, pocketRadius]

/-- C10 (the code at the failing input): the state `traceReleased` is reached from the start
state by a press, ten frames in which the cue ball rolls into the upper left pocket zone and
stops there, a second press, one frame in which the cue ball is scored, and a release; in it
the cue ball is scored and has the velocity `(1/10, 0)`. -/
theorem scored_cue_ball_is_shot :
    Reachable Real.sqrt (traceReleased Real.sqrt) ∧
      (traceReleased Real.sqrt).scored 0 = true ∧
      (traceReleased Real.sqrt).cur_ball_speeds 0 = ⟨1 / 10, 0⟩ := by
  refine ⟨?_, ?_, ?_⟩
  · unfold traceReleased tracePocketed traceStopped traceShot traceCharged
    apply Reachable.step_release
    apply Reachable.step_update _ _ (by norm_num)
    apply Reachable.step_press
    iterate 10 apply Reachable.step_update _ _ (by norm_num)
    apply Reachable.step_release
    apply Reachable.step_update _ _ (by norm_num)
    apply Reachable.step_press
    exact Reachable.start
  · obtain ⟨h1, _, _, h4⟩ := tracePocketed_facts
    unfold traceReleased
    rw [mouseButtonReleased_at_rest Real.sqrt _ _ _ h1]
    exact h4
  · obtain ⟨h1, h2, h3, _⟩ := tracePocketed_facts
    unfold traceReleased
    rw [mouseButtonReleased_at_rest Real.sqrt _ _ _ h1]
    have hA : Abs Real.sqrt ((Vector2.mk (-(62 / 10) : ℝ) (36 / 10)).sub
        ((tracePocketed Real.sqrt).cur_ball_positions 0)) = 1 := by
      apply Abs_eq_of_sq _ _ zero_le_one
      rw [h2]
      norm_num
    simp only [Function.update_same]
    rw [hA, h3, h2]
    simp only [Vector2.scale, Vector2.sub, Vector2.mk.injEq]
    constructor <;> norm_num

end ScoredShot

/-! ## Wall reflection -/

section Walls

variable {α : Type} [LinearOrderedField α]

end Walls

section WallsWitness

end WallsWitness


/-! ## Elastic response -/

section Elastic

/-- The velocities and the cooldown entry that `collide_two_balls` leaves when it applies the
collision response, in terms of the components along and across `unitNormal`. -/
theorem collide_response {α : Type} [LinearOrderedField α] (sqrt : α → α) (s : GameState α)
    (i j : Fin 7) (hij : i < j) (hi : s.scored i = false) (hj : s.scored j = false)
    (hnear : ¬ Abs sqrt ((s.cur_ball_positions i).sub (s.cur_ball_positions j)) > 2 * radius)
    (hc : ¬ min (s.last_collision i j + 1) 10 < 2) :
    (collide_two_balls sqrt s i j).cur_ball_speeds i =
        ⟨dot (s.cur_ball_speeds j) (unitNormal sqrt s i j) * (unitNormal sqrt s i j).x
            - dot (s.cur_ball_speeds i) (perp (unitNormal sqrt s i j))
              * (unitNormal sqrt s i j).y,
          dot (s.cur_ball_speeds j) (unitNormal sqrt s i j) * (unitNormal sqrt s i j).y
            + dot (s.cur_ball_speeds i) (perp (unitNormal sqrt s i j))
              * (unitNormal sqrt s i j).x⟩ ∧
      (collide_two_balls sqrt s i j).cur_ball_speeds j =
        ⟨dot (s.cur_ball_speeds i) (unitNormal sqrt s i j) * (unitNormal sqrt s i j).x
            - dot (s.cur_ball_speeds j) (perp (unitNormal sqrt s i j))
              * (unitNormal sqrt s i j).y,
          dot (s.cur_ball_speeds i) (unitNormal sqrt s i j) * (unitNormal sqrt s i j).y
            + dot (s.cur_ball_speeds j) (perp (unitNormal sqrt s i j))
              * (unitNormal sqrt s i j).x⟩ ∧
      (collide_two_balls sqrt s i j).last_collision i j = 0 := by
  have hg : ¬ (i ≥ j ∨ s.scored j = true ∨ s.scored i = true) := by
    simp [hi, hj, hij]
  have hne : i ≠ j := ne_of_lt hij
  unfold collide_two_balls
  dsimp only
  rw [if_neg hg]
  have h1 : (setCooldown s i j (min (s.last_collision i j + 1) 10)).cur_ball_positions
      = s.cur_ball_positions := rfl
  have h2 : (setCooldown s i j (min (s.last_collision i j + 1) 10)).last_collision i j
      = min (s.last_collision i j + 1) 10 := by simp [setCooldown]
  have h3 : (setCooldown s i j (min (s.last_collision i j + 1) 10)).cur_ball_speeds
      = s.cur_ball_speeds := rfl
  rw [h1, h2, h3, if_neg hnear, if_neg hc]
  refine ⟨?_, ?_, ?_⟩
  · simp only [setCooldown, Function.update_noteq hne, Function.update_same, dot, perp,
      unitNormal, Vector2.mk.injEq]
    constructor <;> ring
  · simp only [setCooldown, Function.update_same, dot, perp, unitNormal, Vector2.mk.injEq]
    constructor <;> ring
  · simp [setCooldown]

/-- C12: in exact real arithmetic, when `collide_two_balls` applies the collision response
(a pair `i < j` of unscored balls with `|pos[i] - pos[j]| ≤ 2 * radius` and incremented
cooldown entry at least 2) to two balls with nonzero separation, the response is applied (the
cooldown entry becomes 0), the sum of the two velocities is unchanged and the sum of the two
squared speeds is unchanged. -/
theorem collide_two_balls_elastic (s : GameState ℝ) (i j : Fin 7)
    (hij : i < j) (hi : s.scored i = false) (hj : s.scored j = false)
    (hpos : 0 < Abs Real.sqrt ((s.cur_ball_positions i).sub (s.cur_ball_positions j)))
    (hnear : Abs Real.sqrt ((s.cur_ball_positions i).sub (s.cur_ball_positions j)) ≤ 2 * radius)
    (hc : 2 ≤ min (s.last_collision i j + 1) 10) :
    (collide_two_balls Real.sqrt s i j).last_collision i j = 0 ∧
      ((collide_two_balls Real.sqrt s i j).cur_ball_speeds i).add
          ((collide_two_balls Real.sqrt s i j).cur_ball_speeds j)
        = (s.cur_ball_speeds i).add (s.cur_ball_speeds j) ∧
      dot ((collide_two_balls Real.sqrt s i j).cur_ball_speeds i)
            ((collide_two_balls Real.sqrt s i j).cur_ball_speeds i)
          + dot ((collide_two_balls Real.sqrt s i j).cur_ball_speeds j)
            ((collide_two_balls Real.sqrt s i j).cur_ball_speeds j)
        = dot (s.cur_ball_speeds i) (s.cur_ball_speeds i)
          + dot (s.cur_ball_speeds j) (s.cur_ball_speeds j) := by
  obtain ⟨ki, kj, kc⟩ :=
    collide_response Real.sqrt s i j hij hi hj (not_lt.2 hnear) (not_lt.2 hc)
  have hn := unitNormal_sq s i j hpos
  refine ⟨kc, ?_, ?_⟩
  · rw [ki, kj]
    generalize unitNormal Real.sqrt s i j = n at hn
    generalize s.cur_ball_speeds i = vi
    generalize s.cur_ball_speeds j = vj
    obtain ⟨p, q⟩ := n
    obtain ⟨a, b⟩ := vi
    obtain ⟨c, d⟩ := vj
    simp only [dot, perp, Vector2.add, Vector2.mk.injEq] at hn ⊢
    constructor
    · linear_combination (a + c) * hn
    · linear_combination (b + d) * hn
  · rw [ki, kj]
    generalize unitNormal Real.sqrt s i j = n at hn
    generalize s.cur_ball_speeds i = vi
    generalize s.cur_ball_speeds j = vj
    obtain ⟨p, q⟩ := n
    obtain ⟨a, b⟩ := vi
    obtain ⟨c, d⟩ := vj
    simp only [dot, perp] at hn ⊢
    linear_combination ((a * a + b * b + c * c + d * d) * (p * p + q * q + 1)) * hn

/-- Witness of C12: balls 0 and 1 at `(0, 0)` and `(0.3, 0.4)`, at distance `0.5`, with
velocities `(1, 2)` and `(0, -1)` and cooldown 3; the response is applied, the velocities still
sum to `(1, 1)` and the squared speeds to 6. -/
theorem collide_two_balls_elastic_witness :
    (collide_two_balls Real.sqrt (obliqueState : GameState ℝ) 0 1).last_collision 0 1 = 0 ∧
      ((collide_two_balls Real.sqrt (obliqueState : GameState ℝ) 0 1).cur_ball_speeds 0).add
          ((collide_two_balls Real.sqrt (obliqueState : GameState ℝ) 0 1).cur_ball_speeds 1)
        = ⟨1, 1⟩ ∧
      dot ((collide_two_balls Real.sqrt (obliqueState : GameState ℝ) 0 1).cur_ball_speeds 0)
            ((collide_two_balls Real.sqrt (obliqueState : GameState ℝ) 0 1).cur_ball_speeds 0)
          + dot ((collide_two_balls Real.sqrt (obliqueState : GameState ℝ) 0 1).cur_ball_speeds 1)
            ((collide_two_balls Real.sqrt (obliqueState : GameState ℝ) 0 1).cur_ball_speeds 1)
        = 6 :=
  have hA : Abs Real.sqrt (((obliqueState : GameState ℝ).cur_ball_positions 0).sub
      ((obliqueState : GameState ℝ).cur_ball_positions 1)) = 5 / 10 := by
    apply Abs_eq_of_sq _ _ (by norm_num)
    norm_num [obliqueState]
  have h := collide_two_balls_elastic (obliqueState : GameState ℝ) 0 1 (by decide)
    (by simp [obliqueState, startState, init]) (by simp [obliqueState, startState, init])
    (by rw [hA]; norm_num) (by rw [hA]; norm_num [radius])
    (by simp [obliqueState, startState, init])
  ⟨h.1, by
      rw [h.2.1]
      simp only [Vector2.add, Vector2.mk.injEq]
      constructor <;> norm_num [obliqueState],
    by
      rw [h.2.2]
      norm_num [obliqueState, dot]⟩

end Elastic

/-! ## The wall tests in binary32 arithmetic -/

section Rounded

variable {α : Type} [LinearOrderedField α]

/-- Without rounding the rounded wall tests are the wall tests of the exact model. -/
theorem checkWallsRounded_id (s : GameState α) (i : Fin 7) :
    checkWallsRounded id s i = checkWalls s i := rfl

end Rounded

section Binary32

end Binary32

end Pool
